import Mathlib

/-!
Verification of the FAIR-Data-Center catalog-ingestion command
(`fairdatacenter/management/commands/load_metadata.py`) and the
observation-query endpoints (`views.query_observations` and
`rest_views.observations_view`) against their specification.

The Python sources are shallowly embedded: database tables become lists of
row structures, `get_or_create` / `update_or_create` become explicit
lookup-then-insert/replace operations on those lists, the current wall clock
(`datetime.now()`) becomes an explicit parameter, the file system becomes a
lookup function from filenames, and HTTP request parameters become an
association list of strings.  Library date parsing (`parse_date` /
`parse_datetime`, deterministic functions of their input) is folded into the
input as already-parsed optional values; timestamps are abstracted to `Nat`,
numeric CSV cells to `Int` (floating-point width is irrelevant to every
property proved here, which only compares cells for equality or renders them
as strings).
-/

namespace FDC

/-! ### String helpers

Python's `in` operator on strings is substring containment; `str.lower()`
lowercases.  Both endpoints and the ingestion heuristics use these.
`containsL hay pat` is `pat in hay` on `List Char`. -/

def startsWithL : List Char → List Char → Bool
  | _, [] => true
  | [], _ :: _ => false
  | a :: as, b :: bs => a == b && startsWithL as bs

def containsL : List Char → List Char → Bool
  | [], pat => startsWithL [] pat
  | a :: t, pat => startsWithL (a :: t) pat || containsL t pat

/-- `str.lower()` as a list of characters. -/
def lowerStr (s : String) : List Char := s.data.map Char.toLower

/-- Case-insensitive containment: `pat.lower() in hay.lower()`.  This is the
semantics of `Series.str.contains(value, case=False)` for pattern strings
without regex metacharacters (the only ones appearing in the claims). -/
def containsCI (hay pat : String) : Bool := containsL (lowerStr hay) (lowerStr pat)

/-- Python `s.split(sep)` for a one-character separator. -/
def splitOnChar (sep : Char) : List Char → List (List Char)
  | [] => [[]]
  | c :: rest =>
    if c == sep then [] :: splitOnChar sep rest
    else match splitOnChar sep rest with
      | [] => [[c]]
      | h :: t => (c :: h) :: t

/-- Python `s.endswith(p)`. -/
def endsWithStr (s p : String) : Bool := startsWithL s.data.reverse p.data.reverse

/-! ### Django ORM upsert primitives

`get_or_create(key, defaults)` looks rows up by their unique key and appends
a new row only when none matches; an existing row is left untouched.
`update_or_create(key, defaults)` replaces the fields of a matching row with
the freshly computed defaults (keeping its position), else appends.  The row
actually stored may differ between the two paths: an `auto_now_add` field
(such as `MonitoringDataset.issued`, models.py) ignores the supplied default
on INSERT and stores the creation date, while on UPDATE the supplied default
is persisted — so `uocK` takes a pair of candidate rows, the update-path row
and the insert-path row.  `keyOf` extracts a row's unique key. -/

def hasKey {α κ : Type} [DecidableEq κ] (keyOf : α → κ) (k : κ) (rows : List α) : Bool :=
  rows.any (fun r => keyOf r = k)

def gocK {α κ : Type} [DecidableEq κ] (keyOf : α → κ) (k : κ) (mk : α)
    (rows : List α) : List α :=
  if hasKey keyOf k rows then rows else rows ++ [mk]

def uocK {α κ : Type} [DecidableEq κ] (keyOf : α → κ) (k : κ) (m : α × α)
    (rows : List α) : List α :=
  if hasKey keyOf k rows then rows.map (fun r => if keyOf r = k then m.1 else r)
  else rows ++ [m.2]

/-- A loader loop that, for each input item, either skips it or
`get_or_create`s a row: `act` returns the key and the freshly built row. -/
def gocFold {α β κ : Type} [DecidableEq κ] (keyOf : α → κ)
    (act : β → Option (κ × α)) (L : List β) (rows : List α) : List α :=
  L.foldl (fun rs b => match act b with
    | none => rs
    | some (k, mk) => gocK keyOf k mk rs) rows

/-- A loader loop that `update_or_create`s a row for every input item:
`act` returns the key together with the (update-path, insert-path) rows. -/
def uocFold {α β κ : Type} [DecidableEq κ] (keyOf : α → κ)
    (act : β → κ × (α × α)) (L : List β) (rows : List α) : List α :=
  L.foldl (fun rs b => uocK keyOf (act b).1 (act b).2 rs) rows

/-- A loader's `act` is well-keyed when each row it builds carries the key it
is filed under (all loaders in `load_metadata.py` are). -/
def WellKeyed {α β κ : Type} [DecidableEq κ] (keyOf : α → κ)
    (act : β → Option (κ × α)) (L : List β) : Prop :=
  ∀ b ∈ L, ∀ k mk, act b = some (k, mk) → keyOf mk = k

/-! ### `update_or_create` loops

`lastUpd act L k` is the row built by the last input item of `L` filed under
key `k` (later items overwrite earlier ones, as consecutive
`update_or_create` calls do). -/

def lastUpdAux {α β κ : Type} [DecidableEq κ] (act : β → κ × α) (L : List β)
    (k : κ) (acc : Option α) : Option α :=
  L.foldl (fun acc b => if (act b).1 = k then some (act b).2 else acc) acc

def lastUpd {α β κ : Type} [DecidableEq κ] (act : β → κ × α) (L : List β)
    (k : κ) : Option α :=
  lastUpdAux act L k none

/-! ### Data model of `load_metadata.py` / `models.py`

One structure per Django model, carrying exactly the fields the ingestion
command writes.  Foreign keys are stored as the referenced row's unique key
(sensor types by `name`, datasets by `dataset_id`, agents by `agent_id`).
Timestamps are abstract instants (`Nat`), dates abstract day numbers. -/

structure NodeRow where
  hostname : String
  location : String
  description : String
deriving DecidableEq, Repr

structure SensorTypeRow where
  name : String
  description : String
deriving DecidableEq, Repr

structure PropRow where
  property_name : String
  label : String
  description : String
  unit : String
  qudt_unit_uri : String
  data_type : String
  sensor_type : String
deriving DecidableEq, Repr

structure AgentRow where
  agent_id : String
  name : String
  agent_type : String
deriving DecidableEq, Repr

structure DatasetRow where
  dataset_id : String
  title : String
  description : String
  start_date : Option Nat
  end_date : Option Nat
  issued : Option Nat
  modified : Nat
  creator_name : String
  creator_email : String
  publisher_name : String
  license_name : String
  license_url : String
  keywords : String
deriving DecidableEq, Repr

structure DataFileRow where
  dataset_id : String
  filename : String
  file_path : String
  file_format : String
  media_type : String
  description : String
  file_size : Option Nat
  row_count : Option Int
  sensor_type : Option String
deriving DecidableEq, Repr

structure ActivityRow where
  activity_id : String
  dataset_id : String
  activity_type : String
  description : String
  start_time : Option Nat
  end_time : Option Nat
  agents : List String
deriving DecidableEq, Repr

structure DB where
  nodes : List NodeRow
  sensorTypes : List SensorTypeRow
  props : List PropRow
  agents : List AgentRow
  datasets : List DatasetRow
  dataFiles : List DataFileRow
  activities : List ActivityRow
deriving DecidableEq, Repr

/-! ### Catalog query results as ingestion input

Each structure is one result row of the corresponding SPARQL query, with
`OPTIONAL` bindings as `Option`.  The deterministic date parsers
(`parse_date` / `parse_datetime`: `None` on unparsable input) are folded
into the input as already-parsed `Option Nat` values. -/

structure PropInput where
  prop : String
  name : String
  unit : Option String
  unitLabel : Option String
deriving DecidableEq, Repr

structure AgentInput where
  agent : String
  name : String
  type : Option String
deriving DecidableEq, Repr

structure FileInput where
  file : String
  title : String
  format : Option String
  description : Option String
deriving DecidableEq, Repr

structure DatasetInput where
  dataset : String
  identifier : Option String
  title : String
  description : String
  startDate : Option Nat
  endDate : Option Nat
  issued : Option (Option Nat)
  creatorName : Option String
  creatorEmail : Option String
  publisherName : Option String
  license : Option String
  keywords : Option String
  files : List FileInput
deriving DecidableEq, Repr

structure ActivityInput where
  activity : String
  label : Option String
  startTime : Option Nat
  endTime : Option Nat
  description : Option String
deriving DecidableEq, Repr

structure CatalogInput where
  props : List PropInput
  agents : List AgentInput
  datasets : List DatasetInput
  activities : List ActivityInput
  activityAgents : List (String × String)
deriving DecidableEq, Repr

/-- A file on disk: `stat().st_size` and its lines. -/
structure DiskFile where
  size : Nat
  lines : List String
deriving DecidableEq, Repr

/-- The wall clock at the moment of a run: `datetime.now()` as an instant and
`datetime.now().date()` as a day number. -/
structure Clock where
  date : Nat
  instant : Nat
deriving DecidableEq, Repr

/-- `str(uri).split('/')[-1]`. -/
def lastSeg (s : String) : String := ⟨(splitOnChar '/' s.data).getLastD s.data⟩

/-- `uri.split('#')[-1] if '#' in uri else uri.split('/')[-1]`. -/
def uriFragment (s : String) : String :=
  if containsL s.data ['#'] then ⟨(splitOnChar '#' s.data).getLastD s.data⟩
  else lastSeg s

/-- `SensorType.objects.filter(name=n).first()`, keeping only the key. -/
def stRef (sts : List SensorTypeRow) (n : String) : Option String :=
  if sts.any (fun r => r.name == n) then some n else none

/-- Sensor-type inference of `load_observable_properties` (keyword buckets on
the lower-cased property label, first match wins). -/
def inferPropSensorType (sts : List SensorTypeRow) (name : String) : Option String :=
  let nl := lowerStr name
  if containsL nl "cpu".data || containsL nl "processor".data then stRef sts "CPU"
  else if containsL nl "memory".data || containsL nl "mem".data then stRef sts "MEMORY"
  else if containsL nl "disk".data || containsL nl "io".data then stRef sts "DISK_IO"
  else if containsL nl "network".data || containsL nl "net".data then stRef sts "NETWORK"
  else none

/-- Sensor-type inference of `load_data_files` on the lower-cased filename:
the `cpu` bucket is guarded by `'linux' not in fn`, `net` by
`'infiniband' not in fn`. -/
def inferFileSensorType (sts : List SensorTypeRow) (filename : String) : Option String :=
  let fn := lowerStr filename
  if containsL fn "cpu".data && !containsL fn "linux".data then stRef sts "CPU"
  else if containsL fn "linux_cpu".data || containsL fn "linux-cpu".data then
    stRef sts "LINUX_CPU"
  else if containsL fn "mem".data then stRef sts "MEMORY"
  else if containsL fn "diskio".data || containsL fn "disk".data then stRef sts "DISK_IO"
  else if containsL fn "infiniband".data then stRef sts "INFINIBAND"
  else if containsL fn "net".data && !containsL fn "infiniband".data then
    stRef sts "NETWORK"
  else if containsL fn "smart_device".data || containsL fn "smart-device".data then
    stRef sts "SMART_DEVICE"
  else if containsL fn "smart_attr".data || containsL fn "smart-attr".data then
    stRef sts "SMART_ATTR"
  else if containsL fn "ipmi".data then stRef sts "IPMI"
  else if containsL fn "procstat".data then stRef sts "PROCSTAT"
  else if containsL fn "turbostat".data then stRef sts "TURBOSTAT"
  else none

/-- License URL to human-readable name (`load_datasets`, lines 315-320):
ordered case-sensitive substring table, else "Unknown License". -/
def licenseNameOf (url : String) : String :=
  if containsL url.data "by-nc-sa/4.0".data then "CC BY-NC-SA 4.0"
  else if containsL url.data "by/4.0".data then "CC BY 4.0"
  else "Unknown License"

/-- Default license URL substituted when the dataset row carries no license
binding (`load_datasets`, line 312). -/
def defaultLicenseUrl : String := "https://creativecommons.org/licenses/by-nc-sa/4.0/"

/-! ### The loaders -/

/-- `nodes_data` hard-coded in `load_compute_nodes`. -/
def nodesSeed : List NodeRow :=
  [⟨"thin001.hpc.rd.areasciencepark.it", "Area Science Park HPC Cluster",
    "Compute node in HPC cluster"⟩,
   ⟨"area-rob", "Area Science Park", "Development workstation"⟩]

/-- One step of `load_compute_nodes`: `get_or_create` keyed on `hostname`. -/
def nodeAct (nd : NodeRow) : Option (String × NodeRow) := some (nd.hostname, nd)

def loadComputeNodes (db : DB) : DB :=
  { db with nodes := (gocFold NodeRow.hostname nodeAct nodesSeed db.nodes) }

/-- `sensor_types` hard-coded in `load_sensor_types`. -/
def sensorTypesSeed : List SensorTypeRow :=
  [⟨"CPU", "CPU usage and performance metrics"⟩,
   ⟨"LINUX_CPU", "Linux CPU frequency and thermal metrics"⟩,
   ⟨"MEMORY", "Memory usage statistics"⟩,
   ⟨"DISK_IO", "Disk read/write operations and throughput"⟩,
   ⟨"NETWORK", "Network interface statistics"⟩,
   ⟨"INFINIBAND", "InfiniBand network performance"⟩,
   ⟨"SMART_DEVICE", "SMART device health metrics"⟩,
   ⟨"SMART_ATTR", "SMART attribute details"⟩,
   ⟨"IPMI", "IPMI sensor readings (temperature, voltage, etc.)"⟩,
   ⟨"PROCSTAT", "Process statistics and resource usage"⟩,
   ⟨"TURBOSTAT", "CPU frequency and power state monitoring"⟩]

/-- One step of `load_sensor_types`: `get_or_create` keyed on `name`. -/
def stAct (st : SensorTypeRow) : Option (String × SensorTypeRow) := some (st.name, st)

def loadSensorTypes (db : DB) : DB :=
  { db with sensorTypes := (gocFold SensorTypeRow.name stAct sensorTypesSeed db.sensorTypes) }

/-- One step of `load_observable_properties`: skip when no sensor type is
inferred, else `get_or_create` keyed on `property_name`. -/
def propAct (sts : List SensorTypeRow) (row : PropInput) : Option (String × PropRow) :=
  let propId := lastSeg row.prop
  match inferPropSensorType sts row.name with
  | none => none
  | some st => some (propId,
      { property_name := propId
        label := row.name
        description := row.name
        unit := row.unitLabel.getD "dimensionless"
        qudt_unit_uri := row.unit.getD ""
        data_type := "FLOAT"
        sensor_type := st })

def loadObservableProperties (input : List PropInput) (db : DB) : DB :=
  { db with props :=
      (gocFold PropRow.property_name (propAct db.sensorTypes) input db.props) }

/-- One step of `load_agents`: `agent_type` starts as `'software'` and is
reassigned `'software'` when the extra type contains it, so it is always
`'software'`. -/
def agentAct (row : AgentInput) : Option (String × AgentRow) :=
  let agentId := lastSeg row.agent
  let agentType :=
    match row.type with
    | some t => if containsL (lowerStr t) "software".data then "software" else "software"
    | none => "software"
  some (agentId, { agent_id := agentId, name := row.name, agent_type := agentType })

def loadAgents (input : List AgentInput) (db : DB) : DB :=
  { db with agents := gocFold AgentRow.agent_id agentAct input db.agents }

/-- The resolved dataset id: `dct:identifier`, else the URI's fragment/last
path segment. -/
def dsIdOf (d : DatasetInput) : String :=
  let i := d.identifier.getD ""
  if i == "" then uriFragment d.dataset else i

/-- The `defaults` dict of the dataset `update_or_create`, evaluated at the
current wall clock `t`: `modified = datetime.now()`, and
`issued = parse_date(issued) if issued else datetime.now().date()`.  This is
the row stored on the UPDATE path; on INSERT the `auto_now_add` field
`issued` (models.py) overrides the supplied default, see
`mkDatasetRowInsert`. -/
def mkDatasetRow (t : Clock) (d : DatasetInput) : DatasetRow :=
  let licenseUrl := d.license.getD defaultLicenseUrl
  { dataset_id := dsIdOf d
    title := d.title
    description := d.description
    start_date := d.startDate
    end_date := d.endDate
    issued := match d.issued with
      | some p => p
      | none => some t.date
    modified := t.instant
    creator_name := d.creatorName.getD "Unknown"
    creator_email := (d.creatorEmail.getD "").replace "mailto:" ""
    publisher_name := d.publisherName.getD "Area Science Park"
    license_name := licenseNameOf licenseUrl
    license_url := licenseUrl
    keywords := d.keywords.getD "" }

/-- The dataset row actually stored when the `update_or_create` takes the
INSERT path: `issued` is an `auto_now_add=True` DateField (models.py), so on
creation Django discards the supplied default and stores the creation date
`datetime.now().date()`; every other field keeps its supplied default. -/
def mkDatasetRowInsert (t : Clock) (d : DatasetInput) : DatasetRow :=
  { mkDatasetRow t d with issued := some t.date }

/-- One step of `load_data_files`: stats from disk when the file exists
(`row_count` is the line count minus one), sensor type inferred from the
filename, `get_or_create` keyed on (dataset, filename). -/
def fileAct (disk : String → Option DiskFile) (datasetsDir : String)
    (sts : List SensorTypeRow) (p : String × FileInput) :
    Option ((String × String) × DataFileRow) :=
  let dsId := p.1
  let filename := p.2.title
  let filePath := datasetsDir ++ "/" ++ filename
  let stat := disk filename
  let fileSize := stat.map DiskFile.size
  let rowCount := stat.map (fun f => (f.lines.length : Int) - 1)
  let sensorType := inferFileSensorType sts filename
  let mediaType := p.2.format.getD "text/csv"
  let fileFormat := if containsL (lowerStr mediaType) "csv".data then "CSV" else "unknown"
  some ((dsId, filename),
    { dataset_id := dsId
      filename := filename
      file_path := filePath
      file_format := fileFormat
      media_type := mediaType
      description := p.2.description.getD ""
      file_size := fileSize
      row_count := rowCount
      sensor_type := sensorType })

def fileKey (r : DataFileRow) : String × String := (r.dataset_id, r.filename)

def loadDataFiles (disk : String → Option DiskFile) (datasetsDir : String)
    (sts : List SensorTypeRow) (dsId : String) (files : List FileInput)
    (rows : List DataFileRow) : List DataFileRow :=
  gocFold fileKey (fileAct disk datasetsDir sts)
    (files.map (fun f => (dsId, f))) rows

/-- One step of `load_activities`: `get_or_create` keyed on `activity_id`;
on creation, `load_activity_agents` links every agent associated in the
catalog that exists in the Agent table. -/
def activityAct (assoc : List (String × String)) (agents : List AgentRow)
    (p : String × ActivityInput) : Option (String × ActivityRow) :=
  let dsId := p.1
  let row := p.2
  let activityId := lastSeg row.activity
  let activityType := row.label.getD "Data Collection Activity"
  let linked := ((assoc.filter (fun q => q.1 == activityId)).map
      (fun q => lastSeg q.2)).filter
    (fun aid => agents.any (fun a => a.agent_id == aid))
  some (activityId,
    { activity_id := activityId
      dataset_id := dsId
      activity_type := activityType
      description := row.description.getD ""
      start_time := row.startTime
      end_time := row.endTime
      agents := linked })

def loadActivities (acts : List ActivityInput) (assoc : List (String × String))
    (agents : List AgentRow) (dsId : String) (rows : List ActivityRow) :
    List ActivityRow :=
  gocFold ActivityRow.activity_id (activityAct assoc agents)
    (acts.map (fun a => (dsId, a))) rows

/-- Body of the `load_datasets` loop for one dataset result row:
`update_or_create` the dataset keyed on its resolved id, then load its data
files and then the (globally queried) activities. -/
def loadDatasetStep (acts : List ActivityInput) (assoc : List (String × String))
    (disk : String → Option DiskFile) (datasetsDir : String) (t : Clock)
    (db : DB) (d : DatasetInput) : DB :=
  let dsId := dsIdOf d
  let db1 := { db with datasets :=
    (uocK DatasetRow.dataset_id dsId (mkDatasetRow t d, mkDatasetRowInsert t d)
      db.datasets) }
  let db2 := { db1 with dataFiles :=
    (loadDataFiles disk datasetsDir db1.sensorTypes dsId d.files db1.dataFiles) }
  { db2 with activities :=
    (loadActivities acts assoc db2.agents dsId db2.activities) }

/-- `load_datasets`: the loop over all dataset result rows. -/
def loadDatasets (input : CatalogInput) (disk : String → Option DiskFile)
    (datasetsDir : String) (t : Clock) (db : DB) : DB :=
  input.datasets.foldl
    (loadDatasetStep input.activities input.activityAgents disk datasetsDir t) db

/-- The dataset upsert of one loop iteration, as key and the
(update-path, insert-path) rows. -/
def dsAct (t : Clock) (d : DatasetInput) : String × (DatasetRow × DatasetRow) :=
  (dsIdOf d, (mkDatasetRow t d, mkDatasetRowInsert t d))

/-- All (dataset id, file row) pairs processed by the nested
`load_data_files` loops, in processing order. -/
def filePairs : List DatasetInput → List (String × FileInput)
  | [] => []
  | d :: L => d.files.map (fun f => (dsIdOf d, f)) ++ filePairs L

/-- All (dataset id, activity row) pairs processed by the nested
`load_activities` loops, in processing order. -/
def activityPairs (acts : List ActivityInput) : List DatasetInput → List (String × ActivityInput)
  | [] => []
  | d :: L => acts.map (fun a => (dsIdOf d, a)) ++ activityPairs acts L

/-- `Command.handle` without `--clear`: the five loaders in order. -/
def handleCmd (input : CatalogInput) (disk : String → Option DiskFile)
    (datasetsDir : String) (t : Clock) (db : DB) : DB :=
  loadDatasets input disk datasetsDir t
    (loadAgents input.agents
      (loadObservableProperties input.props
        (loadSensorTypes (loadComputeNodes db))))

/-- The empty database. -/
def emptyDB : DB := ⟨[], [], [], [], [], [], []⟩

/-! ### Dataframes and the observation-query endpoints

A pandas dataframe read from a CSV is a list of named, typed columns plus a
list of rows.  A cell is a string (object dtype) or a number (numeric dtype,
abstracted to `Int`: the endpoints only compare numeric cells for equality
or render them with `str`). -/

inductive Cell where
  | str (s : String)
  | num (n : Int)
deriving DecidableEq, Repr

/-- `astype(str)` on one cell. -/
def cellStr : Cell → String
  | .str s => s
  | .num n => toString n

inductive Dtype where
  | obj
  | numeric
deriving DecidableEq, Repr

structure DataFrame where
  cols : List (String × Dtype)
  rows : List (List Cell)
deriving DecidableEq, Repr

/-- Cell of a row at column index `i`. -/
def cellAt (row : List Cell) (i : Nat) : Cell := row.getD i (.str "")

/-- `int(s)` for Python: optional surrounding whitespace, optional sign,
then decimal digits; anything else raises `ValueError` (`none` here). -/
def digitsVal : List Char → Option Nat
  | [] => none
  | cs =>
    if cs.all (fun c => c.isDigit) then
      some (cs.foldl (fun a c => a * 10 + (c.toNat - 48)) 0)
    else none

def pyInt (s : String) : Option Int :=
  let cs := ((s.data.dropWhile (fun c => c.isWhitespace)).reverse.dropWhile
    (fun c => c.isWhitespace)).reverse
  match cs with
  | '-' :: rest => (digitsVal rest).map (fun n => -(n : Int))
  | '+' :: rest => (digitsVal rest).map (fun n => (n : Int))
  | _ => (digitsVal cs).map (fun n => (n : Int))

/-- `pd.to_numeric(value)`, restricted to the integer numerics of the model
(raises, i.e. `none`, exactly when `int(value)` would). -/
def toNumeric (s : String) : Option Int := pyInt s

/-- Python slice `l[a:b]` (also `df.iloc[a:b]`): negative indices count from
the end, out-of-range indices clip. -/
def pySlice {α : Type} (l : List α) (a b : Int) : List α :=
  let n := l.length
  let st := if a < 0 then ((n : Int) + a).toNat else min a.toNat n
  let en := if b < 0 then ((n : Int) + b).toNat else min b.toNat n
  (l.drop st).take (en - st)

/-- `request.GET.get(k, dflt)`. -/
def getParam (params : List (String × String)) (k dflt : String) : String :=
  match params.find? (fun p => p.1 == k) with
  | some p => p.2
  | none => dflt

/-- One iteration of the filter loop of `views.query_observations`
(lines 204-207): a query parameter outside {limit, offset, format} naming an
existing column keeps the rows whose cell, rendered with `astype(str)`,
contains the value case-insensitively — regardless of the column's dtype. -/
def queryFilterStep (df : DataFrame) (p : String × String) : DataFrame :=
  if decide (p.1 ∈ (["limit", "offset", "format"] : List String)) then df
  else match df.cols.findIdx? (fun c => c.1 == p.1) with
    | none => df
    | some i =>
      { df with rows :=
          df.rows.filter (fun r => containsCI (cellStr (cellAt r i)) p.2) }

def queryFilters (df : DataFrame) (params : List (String × String)) : DataFrame :=
  params.foldl queryFilterStep df

/-- One iteration of the filter loop of `rest_views.observations_view`
(lines 143-159): skips reserved/empty parameters and unknown columns; object
columns get the case-insensitive containment test, numeric columns exact
equality against `pd.to_numeric(value)`, with the filter skipped when
conversion fails. -/
def restFilterStep (df : DataFrame) (p : String × String) : DataFrame :=
  if decide (p.1 ∈ (["file", "limit", "offset", "format"] : List String)) || p.2 == "" then df
  else match df.cols.findIdx? (fun c => c.1 == p.1) with
    | none => df
    | some i =>
      if (df.cols.getD i ("", Dtype.obj)).2 == Dtype.obj then
        { df with rows :=
            df.rows.filter (fun r => containsCI (cellStr (cellAt r i)) p.2) }
      else match toNumeric p.2 with
        | none => df
        | some n =>
          { df with rows := df.rows.filter (fun r => cellAt r i == Cell.num n) }

def restFilters (df : DataFrame) (params : List (String × String)) : DataFrame :=
  params.foldl restFilterStep df

/-- The JSON body built by `query_observations` on success. -/
structure JsonBody where
  file : String
  dataset : String
  datasetTitle : String
  totalRows : Nat
  returnedRows : Nat
  offset : Int
  limit : Int
  columns : List String
  data : List (List Cell)
  selfLink : String
  nextLink : Option String
  prevLink : Option String
deriving DecidableEq, Repr

/-- Outcome of one `query_observations` request.  `http404` is the `Http404`
raised by `get_object_or_404` (rendered by DRF as a structured 404 body);
`errorResp` is an explicit `Response({'error': ...}, status=...)`;
`uncaught` is an exception that escapes the view function (DRF's handler
re-raises anything that is not an `APIException`/`Http404`). -/
inductive QueryResult where
  | http404 (model : String)
  | errorResp (status : Nat) (msg : String)
  | csvResp (filename : String) (columns : List String) (rows : List (List Cell))
  | jsonResp (body : JsonBody)
  | uncaught (msg : String)
deriving DecidableEq, Repr

/-- The metadata store and file store visible to `query_observations`:
datasets as (dataset_id, title), registered files as (dataset_id, filename),
and the datasets directory, where a present file either parses to a
dataframe or makes `pd.read_csv` raise. -/
structure WebState where
  datasets : List (String × String)
  dataFiles : List (String × String)
  disk : String → Option (Except String DataFrame)

/-- The JSON `data` dict built by `query_observations` on success
(lines 238-255): pagination is applied strictly after filtering, the
pagination links come from the raw offset/limit arithmetic. -/
def mkQueryBody (datasetId tableName dsTitle filename : String)
    (limit offset : Int) (df2 : DataFrame) : JsonBody :=
  let totalRows := df2.rows.length
  let page := pySlice df2.rows offset (offset + limit)
  { file := filename
    dataset := datasetId
    datasetTitle := dsTitle
    totalRows := totalRows
    returnedRows := page.length
    offset := offset
    limit := limit
    columns := df2.cols.map Prod.fst
    data := page
    selfLink := "/datasets/" ++ datasetId ++ "/" ++ tableName
      ++ "?limit=" ++ toString limit ++ "&offset=" ++ toString offset
    nextLink := if offset + limit < (totalRows : Int) then
        some ("/datasets/" ++ datasetId ++ "/" ++ tableName
          ++ "?limit=" ++ toString limit ++ "&offset="
          ++ toString (offset + limit))
      else none
    prevLink := if 0 < offset then
        some ("/datasets/" ++ datasetId ++ "/" ++ tableName
          ++ "?limit=" ++ toString limit ++ "&offset="
          ++ toString (max 0 (offset - limit)))
      else none }

/-- `views.query_observations`.  The int() parses of `limit`/`offset` sit
after the three existence checks and before the try block, exactly as in the
source (lines 174-197). -/
def queryObservations (st : WebState) (datasetId tableName : String)
    (params : List (String × String)) : QueryResult :=
  match st.datasets.find? (fun d => d.1 == datasetId) with
  | none => .http404 "MonitoringDataset"
  | some ds =>
    let filename := if endsWithStr tableName ".csv" then tableName
      else tableName ++ ".csv"
    if ¬ (st.dataFiles.any (fun f => f.1 == datasetId && f.2 == filename)) then
      .http404 "DataFile"
    else match st.disk filename with
    | none => .errorResp 404 ("File " ++ filename ++ " not found on disk")
    | some res =>
      match pyInt (getParam params "limit" "100") with
      | none => .uncaught "ValueError: invalid literal for int() with base 10"
      | some limit0 =>
      match pyInt (getParam params "offset" "0") with
      | none => .uncaught "ValueError: invalid literal for int() with base 10"
      | some offset =>
      let limit := min limit0 10000
      match res with
      | .error e => .errorResp 500 ("Error reading file: " ++ e)
      | .ok df =>
        let df2 := queryFilters df params
        let page := pySlice df2.rows offset (offset + limit)
        if getParam params "format" "json" == "csv" then
          .csvResp (tableName ++ "_query.csv") (df2.cols.map Prod.fst) page
        else
          .jsonResp (mkQueryBody datasetId tableName ds.2 filename limit offset df2)

/-- The JSON body built by `observations_view` on success. -/
structure ObsBody where
  file : String
  totalMatching : Nat
  count : Nat
  offset : Int
  limit : Int
  observations : List (List Cell)
deriving DecidableEq, Repr

inductive ObsResult where
  | errorResp (status : Nat) (msg : String)
  | ok (body : ObsBody)
  | uncaught (msg : String)
deriving DecidableEq, Repr

/-- `rest_views.observations_view`.  The int() parses of `limit`/`offset`
(lines 117-118) run before every check and outside the try block. -/
def observationsView (disk : String → Option (Except String DataFrame))
    (params : List (String × String)) : ObsResult :=
  let filename := getParam params "file" ""
  match pyInt (getParam params "limit" "100") with
  | none => .uncaught "ValueError: invalid literal for int() with base 10"
  | some limit0 =>
  match pyInt (getParam params "offset" "0") with
  | none => .uncaught "ValueError: invalid literal for int() with base 10"
  | some offset =>
  let limit := min limit0 10000
  if filename == "" then
    .errorResp 400 "Missing 'file' parameter. Available files: cpu.csv, mem.csv, diskio.csv, net.csv, ipmi_sensor.csv, etc."
  else match disk filename with
  | none => .errorResp 404 ("File '" ++ filename ++ "' not found")
  | some (.error e) => .errorResp 500 ("Error reading file: " ++ e)
  | some (.ok df) =>
    let df2 := restFilters df params
    let total := df2.rows.length
    let page := pySlice df2.rows offset (offset + limit)
    .ok
      { file := filename
        totalMatching := total
        count := page.length
        offset := offset
        limit := limit
        observations := page }

/-! ### Concrete inputs used to instantiate the theorems -/

/-- A catalog dataset row carrying an explicit `dct:issued` date. -/
def c1RerunDataset : DatasetInput :=
  ⟨"http://x/ds/a", some "ds-a", "Title", "Desc", some 3, some 4, some (some 5),
    some "Alice", some "mailto:a@b.c", some "P",
    some "https://creativecommons.org/licenses/by/4.0/", some "k1, k2", []⟩

def c1RerunInput : CatalogInput := ⟨[], [], [c1RerunDataset], [], []⟩

/-- A catalog dataset row with no `dct:issued` triple. -/
def c1NoIssuedDataset : DatasetInput :=
  ⟨"http://x/ds/b", some "ds-b", "T", "D", none, none, none, none, none, none,
    none, none, []⟩

def c1NoIssuedInput : CatalogInput := ⟨[], [], [c1NoIssuedDataset], [], []⟩

/-- A small dataframe with an object column and a numeric column, as
`pd.read_csv` would type them. -/
def exDf : DataFrame :=
  ⟨[("host", Dtype.obj), ("v", Dtype.numeric)],
   [[Cell.str "thin001.hpc.rd.areasciencepark.it", Cell.num 7],
    [Cell.str "other", Cell.num 8],
    [Cell.str "THINX", Cell.num 7]]⟩

/-- A metadata/file-store state: datasets `d` and `e`; `t.csv` and
`ghost.csv` registered under `d`, `only-e.csv` under `e`; `ghost.csv` is
missing from disk, `bad.csv` present but unreadable. -/
def exSt : WebState :=
  ⟨[("d", "T"), ("e", "E")],
   [("d", "t.csv"), ("d", "ghost.csv"), ("e", "only-e.csv")],
   fun f =>
     if f == "t.csv" then some (Except.ok exDf)
     else if f == "only-e.csv" then some (Except.ok exDf)
     else if f == "bad.csv" then some (Except.error "boom") else none⟩

/-- The JSON body returned for `offset=3&limit=-7` against the three-row
example table. -/
def c5Body : JsonBody :=
  ⟨"t.csv", "d", "T", 3, 0, 3, -7, ["host", "v"], [],
   "/datasets/d/t?limit=-7&offset=3",
   some "/datasets/d/t?limit=-7&offset=-4",
   some "/datasets/d/t?limit=-7&offset=10"⟩

/-- The JSON body returned for `limit=5&offset=10` against the three-row
example table. -/
def c5WitnessBody : JsonBody :=
  ⟨"t.csv", "d", "T", 3, 0, 10, 5, ["host", "v"], [],
   "/datasets/d/t?limit=5&offset=10", none,
   some "/datasets/d/t?limit=5&offset=5"⟩

/-- A catalog observable-property row whose label lands in the `cpu`
keyword bucket. -/
def c9PropInput : PropInput := ⟨"http://x/prop/cpu_usage", "CPU usage", none, none⟩

def c9Input : CatalogInput := ⟨[c9PropInput], [], [], [], []⟩

/-- A catalog dataset row with an explicit license URL matching neither
known substring. -/
def c10UnknownDataset : DatasetInput :=
  ⟨"http://x/ds/c", some "ds-c", "T", "D", none, none, none, none, none, none,
    some "http://example.com/license", none, []⟩

/-! ## Generic lemmas about the embedded primitives -/

theorem startsWithL_iff (l p : List Char) :
    startsWithL l p = true ↔ ∃ t, l = p ++ t := by
  induction p generalizing l with
  | nil => simp [startsWithL]
  | cons b bs ih =>
    cases l with
    | nil => simp [startsWithL]
    | cons a as =>
      simp only [startsWithL, Bool.and_eq_true, beq_iff_eq, ih, List.cons_append,
        List.cons.injEq]
      constructor
      · rintro ⟨rfl, t, rfl⟩; exact ⟨t, rfl, rfl⟩
      · rintro ⟨t, rfl, rfl⟩; exact ⟨rfl, t, rfl⟩

theorem containsL_iff (l p : List Char) :
    containsL l p = true ↔ ∃ s t, l = s ++ p ++ t := by
  induction l with
  | nil =>
    simp only [containsL, startsWithL_iff]
    constructor
    · rintro ⟨t, h⟩; exact ⟨[], t, by simpa using h⟩
    · rintro ⟨s, t, h⟩
      have hs : s = [] := by
        cases s with
        | nil => rfl
        | cons x xs => simp at h
      subst hs; exact ⟨t, by simpa using h⟩
  | cons a as ih =>
    simp only [containsL, Bool.or_eq_true, startsWithL_iff, ih]
    constructor
    · rintro (⟨t, h⟩ | ⟨s, t, h⟩)
      · exact ⟨[], t, by simpa using h⟩
      · exact ⟨a :: s, t, by simp [h]⟩
    · rintro ⟨s, t, h⟩
      cases s with
      | nil => exact Or.inl ⟨t, by simpa using h⟩
      | cons x xs =>
        simp only [List.cons_append, List.cons.injEq] at h
        exact Or.inr ⟨xs, t, h.2⟩

/-- Substring containment is transitive. -/
theorem containsL_trans {l p q : List Char}
    (h₁ : containsL l p = true) (h₂ : containsL p q = true) :
    containsL l q = true := by
  rw [containsL_iff] at h₁ h₂ ⊢
  obtain ⟨s, t, rfl⟩ := h₁
  obtain ⟨s', t', rfl⟩ := h₂
  exact ⟨s ++ s', t' ++ t, by simp⟩

/-- Every string contains the empty pattern. -/
theorem containsL_nil (l : List Char) : containsL l [] = true := by
  cases l <;> simp [containsL, startsWithL]

section UpsertLemmas

variable {α β κ : Type} [DecidableEq κ] {keyOf : α → κ}

theorem gocK_noop {k : κ} {mk : α} {rows : List α}
    (h : hasKey keyOf k rows = true) : gocK keyOf k mk rows = rows := by
  simp [gocK, h]

theorem hasKey_gocK (p : κ) {k : κ} {mk : α} {rows : List α}
    (h : hasKey keyOf p rows = true) :
    hasKey keyOf p (gocK keyOf k mk rows) = true := by
  unfold gocK
  split
  · exact h
  · simp only [hasKey, List.any_append, Bool.or_eq_true]
    exact Or.inl h

theorem gocK_hasKey {k : κ} {mk : α} {rows : List α} (hmk : keyOf mk = k) :
    hasKey keyOf k (gocK keyOf k mk rows) = true := by
  unfold gocK
  split
  · assumption
  · simp [hasKey, hmk]

theorem hasKey_uocK (p : κ) {k : κ} {m : α × α} {rows : List α}
    (hmk : keyOf m.1 = k) (h : hasKey keyOf p rows = true) :
    hasKey keyOf p (uocK keyOf k m rows) = true := by
  unfold uocK
  split
  · simp only [hasKey, List.any_map, List.any_eq_true, Function.comp] at h ⊢
    obtain ⟨r, hr, hkr⟩ := h
    refine ⟨r, hr, ?_⟩
    by_cases hc : keyOf r = k
    · simpa [hc, hmk] using hkr
    · simpa [hc] using hkr
  · simp only [hasKey, List.any_append, Bool.or_eq_true]
    exact Or.inl h

theorem hasKey_gocFold (p : κ) {act : β → Option (κ × α)} {L : List β}
    {rows : List α} (h : hasKey keyOf p rows = true) :
    hasKey keyOf p (gocFold keyOf act L rows) = true := by
  induction L generalizing rows with
  | nil => exact h
  | cons b L ih =>
    simp only [gocFold, List.foldl_cons] at *
    cases hb : act b with
    | none => simpa [hb] using ih h
    | some km =>
      simp only [hb]
      exact ih (hasKey_gocK p h)

theorem gocFold_saturates {act : β → Option (κ × α)} {L : List β} {rows : List α}
    (hwk : WellKeyed keyOf act L) :
    ∀ b ∈ L, ∀ k mk, act b = some (k, mk) →
      hasKey keyOf k (gocFold keyOf act L rows) = true := by
  induction L generalizing rows with
  | nil => intro b hb; simp at hb
  | cons c L ih =>
    intro b hb k mk hact
    simp only [gocFold, List.foldl_cons]
    rcases List.mem_cons.mp hb with rfl | hb
    · rw [hact]
      exact hasKey_gocFold k (gocK_hasKey (hwk b (List.mem_cons_self b L) k mk hact))
    · cases hc : act c with
      | none =>
        exact ih (fun x hx => hwk x (List.mem_cons_of_mem c hx)) b hb k mk hact
      | some km =>
        exact ih (fun x hx => hwk x (List.mem_cons_of_mem c hx)) b hb k mk hact

theorem gocFold_noop {act : β → Option (κ × α)} {L : List β} {rows : List α}
    (h : ∀ b ∈ L, ∀ k mk, act b = some (k, mk) → hasKey keyOf k rows = true) :
    gocFold keyOf act L rows = rows := by
  induction L with
  | nil => rfl
  | cons b L ih =>
    simp only [gocFold, List.foldl_cons]
    cases hb : act b with
    | none => exact ih (fun x hx => h x (List.mem_cons_of_mem b hx))
    | some km =>
      obtain ⟨k, mk⟩ := km
      show gocFold keyOf act L (gocK keyOf k mk rows) = rows
      rw [gocK_noop (h b (List.mem_cons_self b L) k mk hb)]
      exact ih (fun x hx => h x (List.mem_cons_of_mem b hx))

/-- Re-running a well-keyed `get_or_create` loop is a no-op: the first run
saturated every key the loop files under. -/
theorem gocFold_idem {act : β → Option (κ × α)} {L : List β} {rows : List α}
    (hwk : WellKeyed keyOf act L) :
    gocFold keyOf act L (gocFold keyOf act L rows) = gocFold keyOf act L rows :=
  gocFold_noop (fun b hb k mk hact => gocFold_saturates hwk b hb k mk hact)

/-- Rows produced by a `get_or_create` loop are either pre-existing or built
by the loop's `act`. -/
theorem gocFold_mem {act : β → Option (κ × α)} {L : List β} {rows : List α}
    {r : α} (hr : r ∈ gocFold keyOf act L rows) :
    r ∈ rows ∨ ∃ b ∈ L, ∃ k, act b = some (k, r) := by
  induction L generalizing rows with
  | nil => exact Or.inl hr
  | cons b L ih =>
    simp only [gocFold, List.foldl_cons] at hr
    cases hb : act b with
    | none =>
      rw [hb] at hr
      rcases ih hr with h | ⟨c, hc, k, hk⟩
      · exact Or.inl h
      · exact Or.inr ⟨c, List.mem_cons_of_mem b hc, k, hk⟩
    | some km =>
      obtain ⟨k', mk'⟩ := km
      rw [hb] at hr
      have hr' : r ∈ gocFold keyOf act L (gocK keyOf k' mk' rows) := hr
      rcases ih hr' with h | ⟨c, hc, k, hk⟩
      · unfold gocK at h
        by_cases hkk : hasKey keyOf k' rows = true
        · rw [if_pos hkk] at h
          exact Or.inl h
        · rw [if_neg hkk] at h
          rcases List.mem_append.mp h with h | h
          · exact Or.inl h
          · simp only [List.mem_singleton] at h
            subst h
            exact Or.inr ⟨b, List.mem_cons_self b L, k', hb⟩
      · exact Or.inr ⟨c, List.mem_cons_of_mem b hc, k, hk⟩

end UpsertLemmas

section UocLemmas

variable {α β κ : Type} [DecidableEq κ] {keyOf : α → κ}

theorem lastUpdAux_absorb (act : β → κ × α) (L : List β) (k : κ)
    (acc : Option α) :
    lastUpdAux act L k acc = (lastUpd act L k).or acc := by
  induction L generalizing acc with
  | nil => rfl
  | cons b L ih =>
    have h1 : lastUpdAux act (b :: L) k acc =
        lastUpdAux act L k (if (act b).1 = k then some (act b).2 else acc) := rfl
    have h2 : lastUpd act (b :: L) k =
        lastUpdAux act L k (if (act b).1 = k then some (act b).2 else none) := rfl
    rw [h1, h2, ih (if (act b).1 = k then some (act b).2 else acc),
      ih (if (act b).1 = k then some (act b).2 else none)]
    cases lastUpd act L k with
    | some m => rfl
    | none => by_cases hb : (act b).1 = k <;> simp [hb, Option.or]

theorem lastUpd_cons (act : β → κ × α) (b : β) (L : List β) (k : κ) :
    lastUpd act (b :: L) k =
      (lastUpd act L k).or (if (act b).1 = k then some (act b).2 else none) := by
  have h2 : lastUpd act (b :: L) k =
      lastUpdAux act L k (if (act b).1 = k then some (act b).2 else none) := rfl
  rw [h2, lastUpdAux_absorb]

theorem lastUpd_eq_none_iff (act : β → κ × α) (L : List β) (k : κ) :
    lastUpd act L k = none ↔ ∀ b ∈ L, (act b).1 ≠ k := by
  induction L with
  | nil => simp [lastUpd, lastUpdAux]
  | cons b L ih =>
    rw [lastUpd_cons]
    cases h : lastUpd act L k with
    | some m =>
      simp only [Option.or]
      constructor
      · intro hc; cases hc
      · intro hall
        exact absurd (ih.mpr fun c hc => hall c (List.mem_cons_of_mem b hc))
          (by simp [h])
    | none =>
      by_cases hb : (act b).1 = k
      · simp [Option.or, hb]
      · simp only [Option.or, if_neg hb, List.mem_cons]
        constructor
        · intro _ c hc
          rcases hc with rfl | hc
          · exact hb
          · exact ih.mp h c hc
        · intro _; trivial

theorem hasKey_uocFold (p : κ) {act : β → κ × (α × α)} {L : List β}
    {rows : List α}
    (hwk : ∀ b ∈ L, keyOf (act b).2.1 = (act b).1)
    (h : hasKey keyOf p rows = true) :
    hasKey keyOf p (uocFold keyOf act L rows) = true := by
  induction L generalizing rows with
  | nil => exact h
  | cons b L ih =>
    show hasKey keyOf p (uocFold keyOf act L (uocK keyOf (act b).1 (act b).2 rows)) = true
    exact ih (fun c hc => hwk c (List.mem_cons_of_mem b hc))
      (hasKey_uocK p (hwk b (List.mem_cons_self b L)) h)

theorem uocFold_saturates {act : β → κ × (α × α)} {L : List β} {rows : List α}
    (hwk : ∀ b ∈ L, keyOf (act b).2.1 = (act b).1 ∧ keyOf (act b).2.2 = (act b).1) :
    ∀ b ∈ L, hasKey keyOf (act b).1 (uocFold keyOf act L rows) = true := by
  induction L generalizing rows with
  | nil => intro b hb; simp at hb
  | cons c L ih =>
    intro b hb
    show hasKey keyOf (act b).1
        (uocFold keyOf act L (uocK keyOf (act c).1 (act c).2 rows)) = true
    rcases List.mem_cons.mp hb with rfl | hb
    · refine hasKey_uocFold _ (fun d hd => (hwk d (List.mem_cons_of_mem b hd)).1) ?_
      unfold uocK
      split
      · rename_i hk
        simp only [hasKey, List.any_map, List.any_eq_true, Function.comp] at hk ⊢
        obtain ⟨r, hr, hkr⟩ := hk
        exact ⟨r, hr, by
          simp [of_decide_eq_true hkr, (hwk b (List.mem_cons_self b L)).1]⟩
      · simp [hasKey, (hwk b (List.mem_cons_self b L)).2]
    · exact ih (fun d hd => hwk d (List.mem_cons_of_mem c hd)) b hb

/-- When every key it touches is already present, an `update_or_create` loop
rewrites rows in place: each row whose key was touched ends up as the
update-path row built by the last input item with that key. -/
theorem uocFold_map_of_saturated {act : β → κ × (α × α)} {L : List β}
    {rows : List α}
    (hwk : ∀ b ∈ L, keyOf (act b).2.1 = (act b).1)
    (hsat : ∀ b ∈ L, hasKey keyOf (act b).1 rows = true) :
    uocFold keyOf act L rows =
      rows.map (fun r => ((lastUpd act L (keyOf r)).map Prod.fst).getD r) := by
  induction L generalizing rows with
  | nil =>
    show rows = rows.map fun r => r
    simp
  | cons b L ih =>
    show uocFold keyOf act L (uocK keyOf (act b).1 (act b).2 rows) = _
    have hb1 := hsat b (List.mem_cons_self b L)
    have hrepl : uocK keyOf (act b).1 (act b).2 rows =
        rows.map (fun r => if keyOf r = (act b).1 then (act b).2.1 else r) := by
      unfold uocK
      rw [if_pos hb1]
    have hsat' : ∀ c ∈ L, hasKey keyOf (act c).1
        (rows.map (fun r => if keyOf r = (act b).1 then (act b).2.1 else r)) = true := by
      intro c hc
      rw [← hrepl]
      exact hasKey_uocK _ (hwk b (List.mem_cons_self b L))
        (hsat c (List.mem_cons_of_mem b hc))
    rw [hrepl, ih (fun c hc => hwk c (List.mem_cons_of_mem b hc)) hsat', List.map_map]
    refine List.map_congr_left fun r _ => ?_
    simp only [Function.comp]
    have hkb := hwk b (List.mem_cons_self b L)
    by_cases hc : keyOf r = (act b).1
    · rw [if_pos hc, lastUpd_cons, hkb, hc, if_pos rfl]
      cases lastUpd act L (act b).1 with
      | none => rfl
      | some m => rfl
    · rw [if_neg hc, lastUpd_cons, if_neg (fun h => hc h.symm)]
      cases lastUpd act L (keyOf r) with
      | none => rfl
      | some m => rfl

/-- A row present after an `update_or_create` loop whose key the loop never
touched was already present before the loop. -/
theorem uocFold_untouched {act : β → κ × (α × α)} {L : List β} {rows : List α}
    (hwk : ∀ b ∈ L, keyOf (act b).2.1 = (act b).1 ∧ keyOf (act b).2.2 = (act b).1) :
    ∀ r ∈ uocFold keyOf act L rows,
      lastUpd act L (keyOf r) = none → r ∈ rows := by
  induction L generalizing rows with
  | nil => intro r hr _; exact hr
  | cons b L ih =>
    intro r hr hn
    have hr' : r ∈ uocFold keyOf act L (uocK keyOf (act b).1 (act b).2 rows) := hr
    have hkb := hwk b (List.mem_cons_self b L)
    rw [lastUpd_cons] at hn
    cases hL : lastUpd act L (keyOf r) with
    | some m2 =>
      rw [hL] at hn
      simp [Option.or] at hn
    | none =>
      rw [hL] at hn
      by_cases hcb : (act b).1 = keyOf r
      · rw [if_pos hcb] at hn
        simp [Option.or] at hn
      · have hmem := ih (fun c hc => hwk c (List.mem_cons_of_mem b hc)) r hr' hL
        unfold uocK at hmem
        by_cases hk : hasKey keyOf (act b).1 rows = true
        · rw [if_pos hk] at hmem
          obtain ⟨r0, hr0m, hr0⟩ := List.mem_map.mp hmem
          by_cases h0 : keyOf r0 = (act b).1
          · rw [if_pos h0] at hr0
            subst hr0
            exact absurd hkb.1 (fun h => hcb (h ▸ rfl))
          · rw [if_neg h0] at hr0
            subst hr0
            exact hr0m
        · rw [if_neg hk] at hmem
          rcases List.mem_append.mp hmem with hmem | hmem
          · exact hmem
          · simp only [List.mem_singleton] at hmem
            subst hmem
            exact absurd hkb.2 (fun h => hcb (h ▸ rfl))

/-- A row present after an `update_or_create` loop whose key was touched by
the loop is one of the two candidate rows built by the last touching input
item: its update-path row (the key was already in the table at that point)
or its insert-path row (the item created it). -/
theorem uocFold_last {act : β → κ × (α × α)} {L : List β} {rows : List α}
    (hwk : ∀ b ∈ L, keyOf (act b).2.1 = (act b).1 ∧ keyOf (act b).2.2 = (act b).1) :
    ∀ r ∈ uocFold keyOf act L rows,
      ∀ m, lastUpd act L (keyOf r) = some m → r = m.1 ∨ r = m.2 := by
  induction L generalizing rows with
  | nil =>
    intro r _ m hm
    simp [lastUpd, lastUpdAux] at hm
  | cons b L ih =>
    intro r hr m hm
    have hr' : r ∈ uocFold keyOf act L (uocK keyOf (act b).1 (act b).2 rows) := hr
    rw [lastUpd_cons] at hm
    cases hL : lastUpd act L (keyOf r) with
    | some m2 =>
      rw [hL] at hm
      simp only [Option.or] at hm
      exact Option.some.inj hm ▸
        ih (fun c hc => hwk c (List.mem_cons_of_mem b hc)) r hr' m2 hL
    | none =>
      rw [hL] at hm
      by_cases hcb : (act b).1 = keyOf r
      · rw [if_pos hcb] at hm
        simp only [Option.or] at hm
        cases hm
        have hmem : r ∈ uocK keyOf (act b).1 (act b).2 rows :=
          (uocFold_untouched (fun c hc => hwk c (List.mem_cons_of_mem b hc))
            r hr' hL)
        unfold uocK at hmem
        by_cases hk : hasKey keyOf (act b).1 rows = true
        · rw [if_pos hk] at hmem
          obtain ⟨r0, _, hr0⟩ := List.mem_map.mp hmem
          by_cases h0 : keyOf r0 = (act b).1
          · rw [if_pos h0] at hr0
            exact Or.inl hr0.symm
          · rw [if_neg h0] at hr0
            subst hr0
            exact absurd hcb.symm h0
        · rw [if_neg hk] at hmem
          rcases List.mem_append.mp hmem with hmem | hmem
          · refine absurd ?_ hk
            simp only [hasKey, List.any_eq_true]
            exact ⟨r, hmem, by simp [hcb.symm]⟩
          · simp only [List.mem_singleton] at hmem
            exact Or.inr hmem
      · rw [if_neg hcb] at hm
        simp [Option.or] at hm

end UocLemmas

theorem gocFold_append {α β κ : Type} [DecidableEq κ] (keyOf : α → κ)
    (act : β → Option (κ × α)) (xs ys : List β) (rows : List α) :
    gocFold keyOf act (xs ++ ys) rows =
      gocFold keyOf act ys (gocFold keyOf act xs rows) := by
  simp [gocFold, List.foldl_append]

/-! ## Well-keyedness of every loader -/

theorem nodeAct_wellKeyed (L : List NodeRow) :
    WellKeyed NodeRow.hostname nodeAct L := by
  intro b _ k mk h
  cases h
  rfl

theorem stAct_wellKeyed (L : List SensorTypeRow) :
    WellKeyed SensorTypeRow.name stAct L := by
  intro b _ k mk h
  cases h
  rfl

theorem propAct_wellKeyed (sts : List SensorTypeRow) (L : List PropInput) :
    WellKeyed PropRow.property_name (propAct sts) L := by
  intro b _ k mk h
  unfold propAct at h
  cases hinf : inferPropSensorType sts b.name with
  | none => rw [hinf] at h; cases h
  | some st => rw [hinf] at h; cases h; rfl

theorem agentAct_wellKeyed (L : List AgentInput) :
    WellKeyed AgentRow.agent_id agentAct L := by
  intro b _ k mk h
  cases h
  rfl

theorem fileAct_wellKeyed (disk : String → Option DiskFile) (dir : String)
    (sts : List SensorTypeRow) (L : List (String × FileInput)) :
    WellKeyed fileKey (fileAct disk dir sts) L := by
  intro b _ k mk h
  cases h
  rfl

theorem activityAct_wellKeyed (assoc : List (String × String))
    (agents : List AgentRow) (L : List (String × ActivityInput)) :
    WellKeyed ActivityRow.activity_id (activityAct assoc agents) L := by
  intro b _ k mk h
  cases h
  rfl

theorem dsAct_wellKeyed (t : Clock) (L : List DatasetInput) :
    ∀ d ∈ L, DatasetRow.dataset_id (dsAct t d).2.1 = (dsAct t d).1 ∧
      DatasetRow.dataset_id (dsAct t d).2.2 = (dsAct t d).1 := by
  intro d _
  exact ⟨rfl, rfl⟩

/-! ## Component behaviour of the `load_datasets` loop -/

theorem loadDatasets_nodes (input : CatalogInput) (disk : String → Option DiskFile)
    (dir : String) (t : Clock) (db : DB) :
    (loadDatasets input disk dir t db).nodes = db.nodes := by
  obtain ⟨p, a, L, acts, assoc⟩ := input
  induction L generalizing db with
  | nil => rfl
  | cons d L ih => exact ih (loadDatasetStep acts assoc disk dir t db d)

theorem loadDatasets_sensorTypes (input : CatalogInput)
    (disk : String → Option DiskFile) (dir : String) (t : Clock) (db : DB) :
    (loadDatasets input disk dir t db).sensorTypes = db.sensorTypes := by
  obtain ⟨p, a, L, acts, assoc⟩ := input
  induction L generalizing db with
  | nil => rfl
  | cons d L ih => exact ih (loadDatasetStep acts assoc disk dir t db d)

theorem loadDatasets_props (input : CatalogInput) (disk : String → Option DiskFile)
    (dir : String) (t : Clock) (db : DB) :
    (loadDatasets input disk dir t db).props = db.props := by
  obtain ⟨p, a, L, acts, assoc⟩ := input
  induction L generalizing db with
  | nil => rfl
  | cons d L ih => exact ih (loadDatasetStep acts assoc disk dir t db d)

theorem loadDatasets_agents (input : CatalogInput) (disk : String → Option DiskFile)
    (dir : String) (t : Clock) (db : DB) :
    (loadDatasets input disk dir t db).agents = db.agents := by
  obtain ⟨p, a, L, acts, assoc⟩ := input
  induction L generalizing db with
  | nil => rfl
  | cons d L ih => exact ih (loadDatasetStep acts assoc disk dir t db d)

theorem loadDatasets_datasets (input : CatalogInput)
    (disk : String → Option DiskFile) (dir : String) (t : Clock) (db : DB) :
    (loadDatasets input disk dir t db).datasets =
      uocFold DatasetRow.dataset_id (dsAct t) input.datasets db.datasets := by
  obtain ⟨p, a, L, acts, assoc⟩ := input
  induction L generalizing db with
  | nil => rfl
  | cons d L ih => exact ih (loadDatasetStep acts assoc disk dir t db d)

theorem loadDatasets_dataFiles (input : CatalogInput)
    (disk : String → Option DiskFile) (dir : String) (t : Clock) (db : DB) :
    (loadDatasets input disk dir t db).dataFiles =
      gocFold fileKey (fileAct disk dir db.sensorTypes) (filePairs input.datasets)
        db.dataFiles := by
  obtain ⟨p, a, L, acts, assoc⟩ := input
  induction L generalizing db with
  | nil => rfl
  | cons d L ih =>
    have h := ih (loadDatasetStep acts assoc disk dir t db d)
    exact h.trans (gocFold_append fileKey (fileAct disk dir db.sensorTypes)
      (d.files.map (fun f => (dsIdOf d, f))) (filePairs L) db.dataFiles).symm

/-- Two loops whose actions agree on keys agree on which keys they leave
untouched. -/
theorem lastUpd_none_of_keys {β κ γ δ : Type} [DecidableEq κ]
    {act1 : β → κ × γ} {act2 : β → κ × δ} {L : List β}
    (hk : ∀ b ∈ L, (act2 b).1 = (act1 b).1) (k : κ)
    (h : lastUpd act1 L k = none) : lastUpd act2 L k = none := by
  rw [lastUpd_eq_none_iff] at h ⊢
  intro b hb
  rw [hk b hb]
  exact h b hb

/-- When the second run's update-path row is `touch` of both candidate rows
the first run may have stored, the last update of the second run is `touch`
of either candidate of the last update of the first run. -/
theorem lastUpd_touch_rel {α β κ : Type} [DecidableEq κ]
    {act1 act2 : β → κ × (α × α)} {L : List β} (touch : α → α)
    (ht : ∀ b ∈ L, (act2 b).1 = (act1 b).1 ∧
      (act2 b).2.1 = touch (act1 b).2.1 ∧ (act2 b).2.1 = touch (act1 b).2.2)
    (k : κ) :
    ∀ m1, lastUpd act1 L k = some m1 →
      ∃ m2, lastUpd act2 L k = some m2 ∧
        m2.1 = touch m1.1 ∧ m2.1 = touch m1.2 := by
  induction L with
  | nil =>
    intro m1 hm1
    simp [lastUpd, lastUpdAux] at hm1
  | cons b L ih =>
    intro m1 hm1
    rw [lastUpd_cons] at hm1
    rw [lastUpd_cons]
    cases hL1 : lastUpd act1 L k with
    | some m1' =>
      rw [hL1] at hm1
      simp only [Option.or] at hm1
      obtain ⟨m2, hm2, h21, h22⟩ :=
        ih (fun c hc => ht c (List.mem_cons_of_mem b hc)) m1' hL1
      rw [hm2]
      obtain rfl := Option.some.inj hm1
      exact ⟨m2, rfl, h21, h22⟩
    | none =>
      rw [hL1] at hm1
      rw [lastUpd_none_of_keys (fun c hc => (ht c (List.mem_cons_of_mem b hc)).1)
        k hL1]
      by_cases hb : (act1 b).1 = k
      · rw [if_pos hb] at hm1
        simp only [Option.or] at hm1
        obtain rfl := Option.some.inj hm1
        rw [if_pos (((ht b (List.mem_cons_self b L)).1).trans hb)]
        exact ⟨(act2 b).2, rfl, (ht b (List.mem_cons_self b L)).2.1,
          (ht b (List.mem_cons_self b L)).2.2⟩
      · rw [if_neg hb] at hm1
        simp [Option.or] at hm1

/-- Running an `update_or_create` loop a second time, where the second run's
update-path row is `touch` of both rows the first run may have stored under
the same key, maps `touch` over exactly the rows whose key the loop files
under. -/
theorem uocFold_rerun {α β κ : Type} [DecidableEq κ] {keyOf : α → κ}
    {act1 act2 : β → κ × (α × α)} {L : List β} {rows : List α} (touch : α → α)
    (hw1 : ∀ b ∈ L, keyOf (act1 b).2.1 = (act1 b).1 ∧
      keyOf (act1 b).2.2 = (act1 b).1)
    (ht : ∀ b ∈ L, (act2 b).1 = (act1 b).1 ∧
      (act2 b).2.1 = touch (act1 b).2.1 ∧ (act2 b).2.1 = touch (act1 b).2.2)
    (hkt : ∀ a, keyOf (touch a) = keyOf a) :
    uocFold keyOf act2 L (uocFold keyOf act1 L rows) =
      (uocFold keyOf act1 L rows).map
        (fun r => if (lastUpd act1 L (keyOf r)).isSome then touch r else r) := by
  have hw2 : ∀ b ∈ L, keyOf (act2 b).2.1 = (act2 b).1 := by
    intro b hb
    rw [(ht b hb).2.1, hkt, (hw1 b hb).1, (ht b hb).1]
  have hsat : ∀ b ∈ L,
      hasKey keyOf (act2 b).1 (uocFold keyOf act1 L rows) = true := by
    intro b hb
    rw [(ht b hb).1]
    exact uocFold_saturates hw1 b hb
  rw [uocFold_map_of_saturated hw2 hsat]
  refine List.map_congr_left fun r hr => ?_
  cases hL : lastUpd act1 L (keyOf r) with
  | none =>
    rw [lastUpd_none_of_keys (fun c hc => (ht c hc).1) (keyOf r) hL]
    rfl
  | some m1 =>
    obtain ⟨m2, hm2, h21, h22⟩ := lastUpd_touch_rel touch ht (keyOf r) m1 hL
    rw [hm2]
    show m2.1 = touch r
    rcases uocFold_last hw1 r hr m1 hL with rfl | rfl
    · exact h21
    · exact h22

theorem loadDatasets_activities (input : CatalogInput)
    (disk : String → Option DiskFile) (dir : String) (t : Clock) (db : DB) :
    (loadDatasets input disk dir t db).activities =
      gocFold ActivityRow.activity_id
        (activityAct input.activityAgents db.agents)
        (activityPairs input.activities input.datasets) db.activities := by
  obtain ⟨p, a, L, acts, assoc⟩ := input
  induction L generalizing db with
  | nil => rfl
  | cons d L ih =>
    have h := ih (loadDatasetStep acts assoc disk dir t db d)
    exact h.trans (gocFold_append ActivityRow.activity_id
      (activityAct assoc db.agents) (acts.map (fun a => (dsIdOf d, a)))
      (activityPairs acts L) db.activities).symm

theorem lastUpd_isSome_iff {α β κ : Type} [DecidableEq κ] (act : β → κ × α)
    (L : List β) (k : κ) :
    (lastUpd act L k).isSome = true ↔ ∃ b ∈ L, (act b).1 = k := by
  rw [Option.isSome_iff_ne_none]
  constructor
  · intro h
    by_contra hc
    push_neg at hc
    exact h ((lastUpd_eq_none_iff act L k).mpr hc)
  · rintro ⟨b, hb, hk⟩ hnone
    exact (lastUpd_eq_none_iff act L k).mp hnone b hb hk

theorem dbExt {x y : DB} (h1 : x.nodes = y.nodes)
    (h2 : x.sensorTypes = y.sensorTypes) (h3 : x.props = y.props)
    (h4 : x.agents = y.agents) (h5 : x.datasets = y.datasets)
    (h6 : x.dataFiles = y.dataFiles) (h7 : x.activities = y.activities) :
    x = y := by
  cases x
  cases y
  cases h1
  cases h2
  cases h3
  cases h4
  cases h5
  cases h6
  cases h7
  rfl

/-! ## Per-loader component lemmas (all definitional) -/

theorem loadComputeNodes_nodes (db : DB) :
    (loadComputeNodes db).nodes = gocFold NodeRow.hostname nodeAct nodesSeed db.nodes := by
  simp only [loadComputeNodes]

theorem loadComputeNodes_sensorTypes (db : DB) :
    (loadComputeNodes db).sensorTypes = db.sensorTypes := by
  simp only [loadComputeNodes]

theorem loadComputeNodes_props (db : DB) :
    (loadComputeNodes db).props = db.props := by
  simp only [loadComputeNodes]

theorem loadComputeNodes_agents (db : DB) :
    (loadComputeNodes db).agents = db.agents := by
  simp only [loadComputeNodes]

theorem loadComputeNodes_datasets (db : DB) :
    (loadComputeNodes db).datasets = db.datasets := by
  simp only [loadComputeNodes]

theorem loadComputeNodes_dataFiles (db : DB) :
    (loadComputeNodes db).dataFiles = db.dataFiles := by
  simp only [loadComputeNodes]

theorem loadComputeNodes_activities (db : DB) :
    (loadComputeNodes db).activities = db.activities := by
  simp only [loadComputeNodes]

theorem loadSensorTypes_nodes (db : DB) :
    (loadSensorTypes db).nodes = db.nodes := by
  simp only [loadSensorTypes]

theorem loadSensorTypes_sensorTypes (db : DB) :
    (loadSensorTypes db).sensorTypes = gocFold SensorTypeRow.name stAct sensorTypesSeed db.sensorTypes := by
  simp only [loadSensorTypes]

theorem loadSensorTypes_props (db : DB) :
    (loadSensorTypes db).props = db.props := by
  simp only [loadSensorTypes]

theorem loadSensorTypes_agents (db : DB) :
    (loadSensorTypes db).agents = db.agents := by
  simp only [loadSensorTypes]

theorem loadSensorTypes_datasets (db : DB) :
    (loadSensorTypes db).datasets = db.datasets := by
  simp only [loadSensorTypes]

theorem loadSensorTypes_dataFiles (db : DB) :
    (loadSensorTypes db).dataFiles = db.dataFiles := by
  simp only [loadSensorTypes]

theorem loadSensorTypes_activities (db : DB) :
    (loadSensorTypes db).activities = db.activities := by
  simp only [loadSensorTypes]

theorem loadObservableProperties_nodes (input : List PropInput) (db : DB) :
    (loadObservableProperties input db).nodes = db.nodes := by
  simp only [loadObservableProperties]

theorem loadObservableProperties_sensorTypes (input : List PropInput) (db : DB) :
    (loadObservableProperties input db).sensorTypes = db.sensorTypes := by
  simp only [loadObservableProperties]

theorem loadObservableProperties_props (input : List PropInput) (db : DB) :
    (loadObservableProperties input db).props = gocFold PropRow.property_name (propAct db.sensorTypes) input db.props := by
  simp only [loadObservableProperties]

theorem loadObservableProperties_agents (input : List PropInput) (db : DB) :
    (loadObservableProperties input db).agents = db.agents := by
  simp only [loadObservableProperties]

theorem loadObservableProperties_datasets (input : List PropInput) (db : DB) :
    (loadObservableProperties input db).datasets = db.datasets := by
  simp only [loadObservableProperties]

theorem loadObservableProperties_dataFiles (input : List PropInput) (db : DB) :
    (loadObservableProperties input db).dataFiles = db.dataFiles := by
  simp only [loadObservableProperties]

theorem loadObservableProperties_activities (input : List PropInput) (db : DB) :
    (loadObservableProperties input db).activities = db.activities := by
  simp only [loadObservableProperties]

theorem loadAgents_nodes (input : List AgentInput) (db : DB) :
    (loadAgents input db).nodes = db.nodes := by
  simp only [loadAgents]

theorem loadAgents_sensorTypes (input : List AgentInput) (db : DB) :
    (loadAgents input db).sensorTypes = db.sensorTypes := by
  simp only [loadAgents]

theorem loadAgents_props (input : List AgentInput) (db : DB) :
    (loadAgents input db).props = db.props := by
  simp only [loadAgents]

theorem loadAgents_agents (input : List AgentInput) (db : DB) :
    (loadAgents input db).agents = gocFold AgentRow.agent_id agentAct input db.agents := by
  simp only [loadAgents]

theorem loadAgents_datasets (input : List AgentInput) (db : DB) :
    (loadAgents input db).datasets = db.datasets := by
  simp only [loadAgents]

theorem loadAgents_dataFiles (input : List AgentInput) (db : DB) :
    (loadAgents input db).dataFiles = db.dataFiles := by
  simp only [loadAgents]

theorem loadAgents_activities (input : List AgentInput) (db : DB) :
    (loadAgents input db).activities = db.activities := by
  simp only [loadAgents]

/-! ## Component formulas of a whole `handle` run -/

theorem handleCmd_nodes (input : CatalogInput) (disk : String → Option DiskFile)
    (dir : String) (t : Clock) (db : DB) :
    (handleCmd input disk dir t db).nodes =
      gocFold NodeRow.hostname nodeAct nodesSeed db.nodes := by
  unfold handleCmd
  rw [loadDatasets_nodes,
    loadAgents_nodes,
    loadObservableProperties_nodes,
    loadSensorTypes_nodes,
    loadComputeNodes_nodes]

theorem handleCmd_sensorTypes (input : CatalogInput)
    (disk : String → Option DiskFile) (dir : String) (t : Clock) (db : DB) :
    (handleCmd input disk dir t db).sensorTypes =
      gocFold SensorTypeRow.name stAct sensorTypesSeed db.sensorTypes := by
  unfold handleCmd
  rw [loadDatasets_sensorTypes,
    loadAgents_sensorTypes,
    loadObservableProperties_sensorTypes,
    loadSensorTypes_sensorTypes,
    loadComputeNodes_sensorTypes]

theorem handleCmd_props (input : CatalogInput) (disk : String → Option DiskFile)
    (dir : String) (t : Clock) (db : DB) :
    (handleCmd input disk dir t db).props =
      gocFold PropRow.property_name
        (propAct (gocFold SensorTypeRow.name stAct sensorTypesSeed db.sensorTypes))
        input.props db.props := by
  unfold handleCmd
  rw [loadDatasets_props,
    loadAgents_props,
    loadObservableProperties_props,
    loadSensorTypes_sensorTypes,
    loadComputeNodes_sensorTypes,
    loadSensorTypes_props,
    loadComputeNodes_props]

theorem handleCmd_agents (input : CatalogInput) (disk : String → Option DiskFile)
    (dir : String) (t : Clock) (db : DB) :
    (handleCmd input disk dir t db).agents =
      gocFold AgentRow.agent_id agentAct input.agents db.agents := by
  unfold handleCmd
  rw [loadDatasets_agents,
    loadAgents_agents,
    loadObservableProperties_agents,
    loadSensorTypes_agents,
    loadComputeNodes_agents]

theorem handleCmd_datasets (input : CatalogInput) (disk : String → Option DiskFile)
    (dir : String) (t : Clock) (db : DB) :
    (handleCmd input disk dir t db).datasets =
      uocFold DatasetRow.dataset_id (dsAct t) input.datasets db.datasets := by
  unfold handleCmd
  rw [loadDatasets_datasets,
    loadAgents_datasets,
    loadObservableProperties_datasets,
    loadSensorTypes_datasets,
    loadComputeNodes_datasets]

theorem handleCmd_dataFiles (input : CatalogInput) (disk : String → Option DiskFile)
    (dir : String) (t : Clock) (db : DB) :
    (handleCmd input disk dir t db).dataFiles =
      gocFold fileKey
        (fileAct disk dir
          (gocFold SensorTypeRow.name stAct sensorTypesSeed db.sensorTypes))
        (filePairs input.datasets) db.dataFiles := by
  unfold handleCmd
  rw [loadDatasets_dataFiles,
    loadAgents_sensorTypes,
    loadObservableProperties_sensorTypes,
    loadSensorTypes_sensorTypes,
    loadComputeNodes_sensorTypes,
    loadAgents_dataFiles,
    loadObservableProperties_dataFiles,
    loadSensorTypes_dataFiles,
    loadComputeNodes_dataFiles]

theorem handleCmd_activities (input : CatalogInput) (disk : String → Option DiskFile)
    (dir : String) (t : Clock) (db : DB) :
    (handleCmd input disk dir t db).activities =
      gocFold ActivityRow.activity_id
        (activityAct input.activityAgents
          (gocFold AgentRow.agent_id agentAct input.agents db.agents))
        (activityPairs input.activities input.datasets) db.activities := by
  unfold handleCmd
  rw [loadDatasets_activities,
    loadAgents_agents,
    loadObservableProperties_agents,
    loadSensorTypes_agents,
    loadComputeNodes_agents,
    loadAgents_activities,
    loadObservableProperties_activities,
    loadSensorTypes_activities,
    loadComputeNodes_activities]

/-- Under the side condition of claim C1 (a `dct:issued` parsing to exactly
the first run's calendar date, or no `dct:issued` with both runs on the same
calendar date), the dataset defaults computed at clock `t2` differ only in
`modified` both from the update-path row and from the insert-path row
(where `auto_now_add` stored `t1.date`) of the first run. -/
theorem mkDatasetRow_touch {t1 t2 : Clock} {d : DatasetInput}
    (h : d.issued = some (some t1.date) ∨ (d.issued = none ∧ t1.date = t2.date)) :
    mkDatasetRow t2 d = { mkDatasetRow t1 d with modified := t2.instant } ∧
    mkDatasetRow t2 d = { mkDatasetRowInsert t1 d with modified := t2.instant } := by
  rcases h with hp | ⟨hn, hdate⟩
  · constructor
    · simp [mkDatasetRow, hp]
    · simp [mkDatasetRowInsert, mkDatasetRow, hp]
  · constructor
    · simp [mkDatasetRow, hn, hdate]
    · simp [mkDatasetRowInsert, mkDatasetRow, hn, hdate]

/-! ## Claim C1 -/

/-- C1 (amended).  Re-running `load_metadata.handle` (without `--clear`) on
the same catalog input, data directory and starting state leaves every
table identical to the state after the first run — same rows, same order,
hence same row counts and field values — except the `modified` timestamp of
the `MonitoringDataset` rows fed by the catalog, which is rewritten to the
second run's `datetime.now()`; provided each catalog dataset row carries a
`dct:issued` date parsing to exactly the first run's calendar date, or
carries none and both runs fall on the same calendar date.  (Otherwise the
dataset's `issued` is also rewritten: `issued` is `auto_now_add`, so the
first run stores its own date regardless of the catalog, while the second
run's update path persists the parsed `dct:issued` — or the second run's
date — from the `defaults`; see the counterexample.) -/
theorem catalog_ingestion_rerun (input : CatalogInput)
    (disk : String → Option DiskFile) (dir : String) (t1 t2 : Clock) (db0 : DB)
    (hiss : ∀ d ∈ input.datasets, d.issued = some (some t1.date) ∨
      (d.issued = none ∧ t1.date = t2.date)) :
    handleCmd input disk dir t2 (handleCmd input disk dir t1 db0) =
      { handleCmd input disk dir t1 db0 with
        datasets := (handleCmd input disk dir t1 db0).datasets.map
          (fun r => if r.dataset_id ∈ input.datasets.map dsIdOf then
              { r with modified := t2.instant } else r) } := by
  refine dbExt ?_ ?_ ?_ ?_ ?_ ?_ ?_
  · show (handleCmd input disk dir t2 (handleCmd input disk dir t1 db0)).nodes =
      (handleCmd input disk dir t1 db0).nodes
    rw [handleCmd_nodes, handleCmd_nodes]
    exact gocFold_idem (nodeAct_wellKeyed nodesSeed)
  · show (handleCmd input disk dir t2 (handleCmd input disk dir t1 db0)).sensorTypes =
      (handleCmd input disk dir t1 db0).sensorTypes
    rw [handleCmd_sensorTypes, handleCmd_sensorTypes]
    exact gocFold_idem (stAct_wellKeyed sensorTypesSeed)
  · show (handleCmd input disk dir t2 (handleCmd input disk dir t1 db0)).props =
      (handleCmd input disk dir t1 db0).props
    rw [handleCmd_props, handleCmd_sensorTypes,
      gocFold_idem (stAct_wellKeyed sensorTypesSeed), handleCmd_props]
    exact gocFold_idem (propAct_wellKeyed _ input.props)
  · show (handleCmd input disk dir t2 (handleCmd input disk dir t1 db0)).agents =
      (handleCmd input disk dir t1 db0).agents
    rw [handleCmd_agents, handleCmd_agents]
    exact gocFold_idem (agentAct_wellKeyed input.agents)
  · show (handleCmd input disk dir t2 (handleCmd input disk dir t1 db0)).datasets =
      (handleCmd input disk dir t1 db0).datasets.map
        (fun r => if r.dataset_id ∈ input.datasets.map dsIdOf then
            { r with modified := t2.instant } else r)
    rw [handleCmd_datasets, handleCmd_datasets]
    have hrel : ∀ d ∈ input.datasets, (dsAct t2 d).1 = (dsAct t1 d).1 ∧
        (dsAct t2 d).2.1 =
          (fun r => { r with modified := t2.instant }) (dsAct t1 d).2.1 ∧
        (dsAct t2 d).2.1 =
          (fun r => { r with modified := t2.instant }) (dsAct t1 d).2.2 :=
      fun d hd => ⟨rfl, (mkDatasetRow_touch (hiss d hd)).1,
        (mkDatasetRow_touch (hiss d hd)).2⟩
    rw [uocFold_rerun (fun r => { r with modified := t2.instant })
      (dsAct_wellKeyed t1 input.datasets) hrel (fun r => rfl)]
    refine List.map_congr_left fun r _ => ?_
    by_cases hm : r.dataset_id ∈ input.datasets.map dsIdOf
    · rw [if_pos hm, if_pos]
      rw [lastUpd_isSome_iff]
      obtain ⟨b, hb, hfb⟩ := List.mem_map.mp hm
      exact ⟨b, hb, hfb⟩
    · rw [if_neg hm, if_neg]
      rw [lastUpd_isSome_iff]
      rintro ⟨b, hb, hfb⟩
      exact hm (List.mem_map.mpr ⟨b, hb, hfb⟩)
  · show (handleCmd input disk dir t2 (handleCmd input disk dir t1 db0)).dataFiles =
      (handleCmd input disk dir t1 db0).dataFiles
    rw [handleCmd_dataFiles, handleCmd_sensorTypes,
      gocFold_idem (stAct_wellKeyed sensorTypesSeed), handleCmd_dataFiles]
    exact gocFold_idem (fileAct_wellKeyed disk dir _ (filePairs input.datasets))
  · show (handleCmd input disk dir t2 (handleCmd input disk dir t1 db0)).activities =
      (handleCmd input disk dir t1 db0).activities
    rw [handleCmd_activities, handleCmd_agents,
      gocFold_idem (agentAct_wellKeyed input.agents), handleCmd_activities]
    exact gocFold_idem (activityAct_wellKeyed input.activityAgents _
      (activityPairs input.activities input.datasets))

/-- Witness for C1: the rerun theorem evaluated on a one-dataset catalog
whose dataset carries `dct:issued` equal to the first run's calendar date,
at clocks on different days. -/
theorem catalog_ingestion_rerun_witness :
    (∀ d ∈ c1RerunInput.datasets, d.issued = some (some (Clock.mk 5 10).date) ∨
      (d.issued = none ∧ (Clock.mk 5 10).date = (Clock.mk 7 20).date)) ∧
    handleCmd c1RerunInput (fun _ => none) "datasets" ⟨7, 20⟩
        (handleCmd c1RerunInput (fun _ => none) "datasets" ⟨5, 10⟩ emptyDB) =
      { handleCmd c1RerunInput (fun _ => none) "datasets" ⟨5, 10⟩ emptyDB with
        datasets := (handleCmd c1RerunInput (fun _ => none) "datasets" ⟨5, 10⟩
            emptyDB).datasets.map
          (fun r => if r.dataset_id ∈ c1RerunInput.datasets.map dsIdOf then
              { r with modified := (20 : Nat) } else r) } :=
  ⟨by decide, catalog_ingestion_rerun c1RerunInput (fun _ => none) "datasets"
    ⟨5, 10⟩ ⟨7, 20⟩ emptyDB (by decide)⟩

/-- Counterexample for C1 as stated: a second ingestion run changes a
dataset's `issued` field, not only `modified`.  With no `dct:issued` triple,
two runs on consecutive days move `issued` from the first run's date to the
second run's.  Worse, even with an explicit `dct:issued` (here date 5): the
first run's INSERT stores its own creation date (`auto_now_add` discards
the supplied default, day 0), and the second run's UPDATE then persists the
parsed `dct:issued` (5), so `issued` changes between the runs. -/
theorem catalog_ingestion_second_run_changes_issued :
    (handleCmd c1NoIssuedInput (fun _ => none) "datasets" ⟨0, 0⟩
        emptyDB).datasets.map DatasetRow.issued = [some 0] ∧
    (handleCmd c1NoIssuedInput (fun _ => none) "datasets" ⟨1, 1⟩
        (handleCmd c1NoIssuedInput (fun _ => none) "datasets" ⟨0, 0⟩
          emptyDB)).datasets.map DatasetRow.issued = [some 1] ∧
    c1RerunDataset.issued = some (some 5) ∧
    (handleCmd c1RerunInput (fun _ => none) "datasets" ⟨0, 0⟩
        emptyDB).datasets.map DatasetRow.issued = [some 0] ∧
    (handleCmd c1RerunInput (fun _ => none) "datasets" ⟨1, 1⟩
        (handleCmd c1RerunInput (fun _ => none) "datasets" ⟨0, 0⟩
          emptyDB)).datasets.map DatasetRow.issued = [some 5] := by
  decide

theorem loadSensorTypes_any_name (db : DB) {n : String}
    (hn : ∃ st ∈ sensorTypesSeed, st.name = n) :
    (loadSensorTypes db).sensorTypes.any (fun r => r.name == n) = true := by
  obtain ⟨st, hst, rfl⟩ := hn
  have h : hasKey SensorTypeRow.name st.name
      (gocFold SensorTypeRow.name stAct sensorTypesSeed db.sensorTypes) = true :=
    gocFold_saturates (stAct_wellKeyed sensorTypesSeed) st hst st.name st rfl
  rw [loadSensorTypes_sensorTypes]
  simp only [hasKey, List.any_eq_true, decide_eq_true_eq] at h
  simp only [List.any_eq_true, beq_iff_eq]
  exact h

theorem stRef_eq_some {sts : List SensorTypeRow} {n : String}
    (h : sts.any (fun r => r.name == n) = true) : stRef sts n = some n := by
  unfold stRef
  rw [if_pos h]

/-! ## Claim C3 -/

/-- C3.  After the sensor-type table is seeded (as `handle` always does
before `load_data_files` runs), the filename heuristic maps any filename
containing `linux_cpu` or `linux-cpu` (case-insensitively) to `LINUX_CPU` —
the bare-`cpu` bucket is skipped because its guard requires `linux` to be
absent — and any filename containing `cpu` but not `linux` to `CPU`. -/
theorem file_sensor_type_linux_cpu (db : DB) (fn : String) :
    (containsL (lowerStr fn) "linux_cpu".data = true ∨
      containsL (lowerStr fn) "linux-cpu".data = true →
      inferFileSensorType (loadSensorTypes db).sensorTypes fn = some "LINUX_CPU") ∧
    (containsL (lowerStr fn) "cpu".data = true →
      containsL (lowerStr fn) "linux".data = false →
      inferFileSensorType (loadSensorTypes db).sensorTypes fn = some "CPU") := by
  constructor
  · intro h
    have hlinux : containsL (lowerStr fn) "linux".data = true := by
      rcases h with h | h
      · exact containsL_trans h (by decide)
      · exact containsL_trans h (by decide)
    have hst := stRef_eq_some (loadSensorTypes_any_name db
      ⟨⟨"LINUX_CPU", "Linux CPU frequency and thermal metrics"⟩, by decide, rfl⟩)
    rcases h with h | h
    · simp [inferFileSensorType, hlinux, h, hst]
    · simp [inferFileSensorType, hlinux, h, hst]
  · intro hcpu hnl
    have hst := stRef_eq_some (loadSensorTypes_any_name db
      ⟨⟨"CPU", "CPU usage and performance metrics"⟩, by decide, rfl⟩)
    simp [inferFileSensorType, hcpu, hnl, hst]

/-- Witness for C3: `linux_cpu.csv` is tagged `LINUX_CPU`, `cpu.csv` is
tagged `CPU`. -/
theorem file_sensor_type_linux_cpu_witness :
    inferFileSensorType (loadSensorTypes emptyDB).sensorTypes "linux_cpu.csv" =
      some "LINUX_CPU" ∧
    inferFileSensorType (loadSensorTypes emptyDB).sensorTypes "cpu.csv" =
      some "CPU" :=
  ⟨(file_sensor_type_linux_cpu emptyDB "linux_cpu.csv").1 (Or.inl (by decide)),
   (file_sensor_type_linux_cpu emptyDB "cpu.csv").2 (by decide) (by decide)⟩

/-! ## Claim C9 -/

/-- C9.  Every ObservableProperty row that a whole ingestion run adds to the
table has `data_type = 'FLOAT'`: `load_observable_properties` hard-codes the
value, so no other data type is ever produced by the ingestion flow. -/
theorem observable_property_data_type_float (input : CatalogInput)
    (disk : String → Option DiskFile) (dir : String) (t : Clock) (db : DB) :
    ∀ r ∈ (handleCmd input disk dir t db).props,
      r ∈ db.props ∨ r.data_type = "FLOAT" := by
  intro r hr
  rw [handleCmd_props] at hr
  rcases gocFold_mem hr with h | ⟨b, _, k, hk⟩
  · exact Or.inl h
  · right
    unfold propAct at hk
    cases hinf : inferPropSensorType
        (gocFold SensorTypeRow.name stAct sensorTypesSeed db.sensorTypes)
        b.name with
    | none => rw [hinf] at hk; cases hk
    | some st => rw [hinf] at hk; cases hk; rfl

/-- Witness for C9: the property row created from a `CPU usage` label in a
fresh database carries `data_type = 'FLOAT'`. -/
theorem observable_property_data_type_float_witness :
    (⟨"cpu_usage", "CPU usage", "CPU usage", "dimensionless", "", "FLOAT",
        "CPU"⟩ : PropRow) ∈
      (handleCmd c9Input (fun _ => none) "datasets" ⟨0, 0⟩ emptyDB).props ∧
    ((⟨"cpu_usage", "CPU usage", "CPU usage", "dimensionless", "", "FLOAT",
        "CPU"⟩ : PropRow) ∈ emptyDB.props ∨
      (⟨"cpu_usage", "CPU usage", "CPU usage", "dimensionless", "", "FLOAT",
        "CPU"⟩ : PropRow).data_type = "FLOAT") :=
  ⟨by decide, observable_property_data_type_float c9Input (fun _ => none)
    "datasets" ⟨0, 0⟩ emptyDB _ (by decide)⟩

/-! ## Claim C10 -/

/-- C10.  When a dataset result row carries no license binding, the URL
silently defaults to the CC BY-NC-SA 4.0 URL before the substring table is
applied, so the stored row gets license_name 'CC BY-NC-SA 4.0'; conversely
'Unknown License' is only stored when an explicit license URL contains
neither 'by-nc-sa/4.0' nor 'by/4.0'. -/
theorem dataset_license_default (t : Clock) (d : DatasetInput) :
    (d.license = none →
      (mkDatasetRow t d).license_url = defaultLicenseUrl ∧
      (mkDatasetRow t d).license_name = "CC BY-NC-SA 4.0") ∧
    ((mkDatasetRow t d).license_name = "Unknown License" →
      ∃ u, d.license = some u ∧
        containsL u.data "by-nc-sa/4.0".data = false ∧
        containsL u.data "by/4.0".data = false) := by
  constructor
  · intro h
    constructor
    · simp [mkDatasetRow, h]
    · simp [mkDatasetRow, h]
      decide
  · intro h
    have h3 : (mkDatasetRow t d).license_name =
        licenseNameOf (d.license.getD defaultLicenseUrl) := rfl
    cases hl : d.license with
    | none =>
      exfalso
      rw [h3, hl] at h
      revert h
      decide
    | some u =>
      have h2 : licenseNameOf u = "Unknown License" := by
        rw [h3, hl] at h
        simpa using h
      refine ⟨u, rfl, ?_, ?_⟩
      · by_cases hc : containsL u.data "by-nc-sa/4.0".data = true
        · exfalso
          unfold licenseNameOf at h2
          rw [if_pos hc] at h2
          exact absurd h2 (by decide)
        · simpa using hc
      · by_cases hc : containsL u.data "by/4.0".data = true
        · exfalso
          unfold licenseNameOf at h2
          by_cases hc2 : containsL u.data "by-nc-sa/4.0".data = true
          · rw [if_pos hc2] at h2
            exact absurd h2 (by decide)
          · rw [if_neg (by simpa using hc2 : ¬ containsL u.data "by-nc-sa/4.0".data = true),
              if_pos hc] at h2
            exact absurd h2 (by decide)
        · simpa using hc

/-- Witness for C10: a dataset with no license triple is stored with the CC
BY-NC-SA 4.0 default; one with an unrecognized URL maps from an explicit
`some` URL containing neither substring. -/
theorem dataset_license_default_witness :
    ((mkDatasetRow ⟨0, 0⟩ c1NoIssuedDataset).license_url = defaultLicenseUrl ∧
      (mkDatasetRow ⟨0, 0⟩ c1NoIssuedDataset).license_name = "CC BY-NC-SA 4.0") ∧
    (∃ u, c10UnknownDataset.license = some u ∧
      containsL u.data "by-nc-sa/4.0".data = false ∧
      containsL u.data "by/4.0".data = false) :=
  ⟨(dataset_license_default ⟨0, 0⟩ c1NoIssuedDataset).1 rfl,
   (dataset_license_default ⟨0, 0⟩ c10UnknownDataset).2 (by decide)⟩

/-! ## Claim C7 -/

/-- C7.  For a data file present on disk, `load_data_files` records
`row_count` as the file's line count minus one: a CSV with a header line and
N data lines yields N, a header-only file yields 0, and the count is never
negative for a file with at least one line. -/
theorem load_data_files_row_count (disk : String → Option DiskFile)
    (dir : String) (sts : List SensorTypeRow) (dsId : String) (f : FileInput)
    (df : DiskFile) (header : String) (tail : List String)
    (hdisk : disk f.title = some df) (hlines : df.lines = header :: tail) :
    ∀ k r, fileAct disk dir sts (dsId, f) = some (k, r) →
      r.row_count = some ((df.lines.length : Int) - 1) ∧
      r.row_count = some (tail.length : Int) ∧
      (tail = [] → r.row_count = some 0) ∧
      ∀ c, r.row_count = some c → 0 ≤ c := by
  intro k r h
  simp only [fileAct, hdisk, Option.map_some'] at h
  cases h
  refine ⟨rfl, ?_, ?_, ?_⟩
  · simp only [hlines, List.length_cons, Option.some.injEq]
    push_cast
    ring
  · intro ht
    simp only [hlines, ht, List.length_cons, List.length_nil, Option.some.injEq]
    decide
  · intro c hc
    rw [hlines] at hc
    simp only [List.length_cons, Option.some.injEq] at hc
    omega

/-- Witness for C7: a three-line file (header plus two data rows) is
recorded with `row_count = 2`. -/
theorem load_data_files_row_count_witness :
    (⟨"ds-a", "x.csv", "datasets/x.csv", "CSV", "text/csv", "", some 120,
        some 2, none⟩ : DataFileRow).row_count = some ((3 : Int) - 1) ∧
    (⟨"ds-a", "x.csv", "datasets/x.csv", "CSV", "text/csv", "", some 120,
        some 2, none⟩ : DataFileRow).row_count = some ((2 : Nat) : Int) ∧
    (["r1", "r2"] = ([] : List String) →
      (⟨"ds-a", "x.csv", "datasets/x.csv", "CSV", "text/csv", "", some 120,
        some 2, none⟩ : DataFileRow).row_count = some 0) ∧
    ∀ c, (⟨"ds-a", "x.csv", "datasets/x.csv", "CSV", "text/csv", "", some 120,
        some 2, none⟩ : DataFileRow).row_count = some c → 0 ≤ c :=
  load_data_files_row_count
    (fun f => if f == "x.csv" then some ⟨120, ["h", "r1", "r2"]⟩ else none)
    "datasets" sensorTypesSeed "ds-a" ⟨"http://f/1", "x.csv", some "text/csv", none⟩
    ⟨120, ["h", "r1", "r2"]⟩ "h" ["r1", "r2"] (by decide) rfl
    ("ds-a", "x.csv") _ (by decide)

/-! ## Claim C2 -/

/-- C2.  For a filter parameter naming an existing column (outside the
reserved names), the dataset-scoped `query_observations` loop tests
case-insensitive containment against the `astype(str)` rendering of every
cell — on object and numeric columns alike — while the file-level
`observations_view` loop tests exact numeric equality on numeric columns
(skipping the filter when the value does not convert) and containment only
on object columns. -/
theorem observation_filter_semantics (df : DataFrame) (ko kn vo vn : String)
    (io iN : Nat)
    (hko : ko ∉ (["file", "limit", "offset", "format"] : List String))
    (hkn : kn ∉ (["file", "limit", "offset", "format"] : List String))
    (hio : df.cols.findIdx? (fun c => c.1 == ko) = some io)
    (hin : df.cols.findIdx? (fun c => c.1 == kn) = some iN)
    (hobj : (df.cols.getD io ("", Dtype.obj)).2 = Dtype.obj)
    (hnum : (df.cols.getD iN ("", Dtype.obj)).2 = Dtype.numeric) :
    (queryFilters df [(ko, vo)]).rows =
      df.rows.filter (fun r => containsCI (cellStr (cellAt r io)) vo) ∧
    (queryFilters df [(kn, vn)]).rows =
      df.rows.filter (fun r => containsCI (cellStr (cellAt r iN)) vn) ∧
    (restFilters df [(ko, vo)]).rows =
      df.rows.filter (fun r => containsCI (cellStr (cellAt r io)) vo) ∧
    (restFilters df [(kn, vn)]).rows =
      (match toNumeric vn with
        | some n => df.rows.filter (fun r => cellAt r iN == Cell.num n)
        | none => df.rows) := by
  have hko3 : ¬ ko ∈ (["limit", "offset", "format"] : List String) :=
    fun hm => hko (List.mem_cons_of_mem "file" hm)
  have hkn3 : ¬ kn ∈ (["limit", "offset", "format"] : List String) :=
    fun hm => hkn (List.mem_cons_of_mem "file" hm)
  have hempty : ∀ x : String, containsCI x "" = true := fun x => containsL_nil _
  refine ⟨?_, ?_, ?_, ?_⟩
  · show (queryFilterStep df (ko, vo)).rows = _
    unfold queryFilterStep
    rw [if_neg (by simpa using hko3), hio]
  · show (queryFilterStep df (kn, vn)).rows = _
    unfold queryFilterStep
    rw [if_neg (by simpa using hkn3), hin]
  · show (restFilterStep df (ko, vo)).rows = _
    unfold restFilterStep
    by_cases hv : vo = ""
    · subst hv
      rw [if_pos (by simp)]
      rw [show (fun (r : List Cell) => containsCI (cellStr (cellAt r io)) "") =
        (fun _ => true) from funext (fun r => hempty _)]
      rw [List.filter_true]
    · rw [if_neg (by simp [hko, hv])]
      simp only [hio, hobj]
      simp
  · show (restFilterStep df (kn, vn)).rows = _
    unfold restFilterStep
    by_cases hv : vn = ""
    · subst hv
      rw [if_pos (by simp)]
      rfl
    · rw [if_neg (by simp [hkn, hv])]
      simp only [hin, hnum]
      simp only [show (Dtype.numeric == Dtype.obj) = false from rfl, Bool.false_eq_true,
        if_false]
      cases htn : toNumeric vn with
      | none => simp [htn]
      | some n => simp [htn]

/-- Witness for C2: on a table with an object `host` column and a numeric
`v` column, `host=thin` and `v=7` behave as claimed through both loops. -/
theorem observation_filter_semantics_witness :
    (queryFilters exDf [("host", "thin")]).rows =
      exDf.rows.filter (fun r => containsCI (cellStr (cellAt r 0)) "thin") ∧
    (queryFilters exDf [("v", "7")]).rows =
      exDf.rows.filter (fun r => containsCI (cellStr (cellAt r 1)) "7") ∧
    (restFilters exDf [("host", "thin")]).rows =
      exDf.rows.filter (fun r => containsCI (cellStr (cellAt r 0)) "thin") ∧
    (restFilters exDf [("v", "7")]).rows =
      (match toNumeric "7" with
        | some n => exDf.rows.filter (fun r => cellAt r 1 == Cell.num n)
        | none => exDf.rows) :=
  observation_filter_semantics exDf "host" "v" "thin" "7" 0 1 (by decide)
    (by decide) (by decide) (by decide) (by decide) (by decide)

/-! ## Claim C8 -/

theorem queryFilterStep_cols (df : DataFrame) (p : String × String) :
    (queryFilterStep df p).cols = df.cols := by
  unfold queryFilterStep
  split
  · rfl
  · split <;> rfl

theorem queryFilterStep_mem (df : DataFrame) (p : String × String) (r : List Cell) :
    r ∈ (queryFilterStep df p).rows ↔ r ∈ df.rows ∧
      (¬ p.1 ∈ (["limit", "offset", "format"] : List String) →
        ∀ i, df.cols.findIdx? (fun c => c.1 == p.1) = some i →
          containsCI (cellStr (cellAt r i)) p.2 = true) := by
  unfold queryFilterStep
  by_cases hres : p.1 ∈ (["limit", "offset", "format"] : List String)
  · rw [if_pos (by simpa using hres)]
    simp [hres]
  · rw [if_neg (by simpa using hres)]
    cases hidx : df.cols.findIdx? (fun c => c.1 == p.1) with
    | none => simp
    | some i =>
      show r ∈ df.rows.filter _ ↔ _
      rw [List.mem_filter]
      constructor
      · rintro ⟨hm, hp⟩
        exact ⟨hm, fun _ i' hi' => by cases hi'; exact hp⟩
      · rintro ⟨hm, hp⟩
        exact ⟨hm, hp hres i rfl⟩

theorem queryFilters_mem (df : DataFrame) (params : List (String × String))
    (r : List Cell) :
    r ∈ (queryFilters df params).rows ↔ r ∈ df.rows ∧
      ∀ p ∈ params, ¬ p.1 ∈ (["limit", "offset", "format"] : List String) →
        ∀ i, df.cols.findIdx? (fun c => c.1 == p.1) = some i →
          containsCI (cellStr (cellAt r i)) p.2 = true := by
  induction params generalizing df with
  | nil => simp [queryFilters]
  | cons p ps ih =>
    have hstep : queryFilters df (p :: ps) = queryFilters (queryFilterStep df p) ps := rfl
    rw [hstep, ih (queryFilterStep df p), queryFilterStep_cols, queryFilterStep_mem]
    constructor
    · rintro ⟨⟨hm, hp⟩, hps⟩
      refine ⟨hm, ?_⟩
      intro q hq
      rcases List.mem_cons.mp hq with rfl | hq
      · exact hp
      · exact hps q hq
    · rintro ⟨hm, hall⟩
      exact ⟨⟨hm, hall p (List.mem_cons_self p ps)⟩,
        fun q hq => hall q (List.mem_cons_of_mem p hq)⟩

/-- C8.  In `query_observations` filtering: a parameter naming no column of
the loaded table (and outside {limit, offset, format}) leaves the dataframe
unchanged; a row survives the whole filter loop iff it satisfies every
recognized filter (logical AND); and a filter on an existing string column
matches case-insensitively by substring, so `host=thin` matches the cell
value `thin001.hpc.rd.areasciencepark.it`. -/
theorem query_filters_compose (df : DataFrame) (params : List (String × String)) :
    (∀ k v, ¬ k ∈ (["limit", "offset", "format"] : List String) →
      df.cols.findIdx? (fun c => c.1 == k) = none →
      queryFilters df [(k, v)] = df) ∧
    (∀ r, r ∈ (queryFilters df params).rows ↔ r ∈ df.rows ∧
      ∀ p ∈ params, ¬ p.1 ∈ (["limit", "offset", "format"] : List String) →
        ∀ i, df.cols.findIdx? (fun c => c.1 == p.1) = some i →
          containsCI (cellStr (cellAt r i)) p.2 = true) ∧
    containsCI (cellStr (Cell.str "thin001.hpc.rd.areasciencepark.it")) "thin" = true := by
  refine ⟨?_, fun r => queryFilters_mem df params r, by decide⟩
  intro k v hk hidx
  show queryFilterStep df (k, v) = df
  unfold queryFilterStep
  rw [if_neg (by simpa using hk), hidx]

/-- Witness for C8: on the example table, `nosuch=x` is a no-op, and the
membership characterization and the `host=thin` match hold concretely. -/
theorem query_filters_compose_witness :
    queryFilters exDf [("nosuch", "x")] = exDf ∧
    ([Cell.str "thin001.hpc.rd.areasciencepark.it", Cell.num 7] ∈
        (queryFilters exDf [("host", "thin")]).rows ↔
      [Cell.str "thin001.hpc.rd.areasciencepark.it", Cell.num 7] ∈ exDf.rows ∧
      ∀ p ∈ [("host", "thin")],
        ¬ p.1 ∈ (["limit", "offset", "format"] : List String) →
        ∀ i, exDf.cols.findIdx? (fun c => c.1 == p.1) = some i →
          containsCI (cellStr (cellAt
              [Cell.str "thin001.hpc.rd.areasciencepark.it", Cell.num 7] i))
            p.2 = true) ∧
    containsCI (cellStr (Cell.str "thin001.hpc.rd.areasciencepark.it")) "thin" = true :=
  ⟨(query_filters_compose exDf [("host", "thin")]).1 "nosuch" "x" (by decide)
      (by decide),
   (query_filters_compose exDf [("host", "thin")]).2.1
      [Cell.str "thin001.hpc.rd.areasciencepark.it", Cell.num 7],
   (query_filters_compose exDf [("host", "thin")]).2.2⟩

/-! ## Claim C6 -/

/-- C6.  `query_observations` validates in order: dataset existence (else
the `MonitoringDataset` Http404), then registration of the `.csv`-completed
filename under that dataset (else the `DataFile` Http404 — returned even
when the file sits on disk registered under a different dataset, before the
disk is consulted), then physical existence on disk (else the distinct
explicit 404 error body). -/
theorem query_observations_validation_order (st : WebState) (ds tn : String)
    (params : List (String × String)) :
    (st.datasets.find? (fun d => d.1 == ds) = none →
      queryObservations st ds tn params = .http404 "MonitoringDataset") ∧
    (∀ d0, st.datasets.find? (fun d => d.1 == ds) = some d0 →
      st.dataFiles.any (fun f => f.1 == ds &&
        f.2 == (if endsWithStr tn ".csv" then tn else tn ++ ".csv")) = false →
      queryObservations st ds tn params = .http404 "DataFile") ∧
    (∀ d0 e, st.datasets.find? (fun d => d.1 == ds) = some d0 →
      st.dataFiles.any (fun f => f.1 == ds &&
        f.2 == (if endsWithStr tn ".csv" then tn else tn ++ ".csv")) = false →
      e ≠ ds →
      (e, if endsWithStr tn ".csv" then tn else tn ++ ".csv") ∈ st.dataFiles →
      st.disk (if endsWithStr tn ".csv" then tn else tn ++ ".csv") ≠ none →
      queryObservations st ds tn params = .http404 "DataFile") ∧
    (∀ d0, st.datasets.find? (fun d => d.1 == ds) = some d0 →
      st.dataFiles.any (fun f => f.1 == ds &&
        f.2 == (if endsWithStr tn ".csv" then tn else tn ++ ".csv")) = true →
      st.disk (if endsWithStr tn ".csv" then tn else tn ++ ".csv") = none →
      queryObservations st ds tn params =
        .errorResp 404 ("File " ++
          (if endsWithStr tn ".csv" then tn else tn ++ ".csv")
          ++ " not found on disk")) := by
  refine ⟨?_, ?_, ?_, ?_⟩
  · intro h
    unfold queryObservations
    rw [h]
  · intro d0 hf hreg
    simp [queryObservations, hf, hreg]
  · intro d0 e hf hreg _ _ _
    simp [queryObservations, hf, hreg]
  · intro d0 hf hreg hdisk
    simp [queryObservations, hf, hreg, hdisk]

/-- Witness for C6 on the example store: unknown dataset, a file registered
only under dataset `e` but requested under `d` (present on disk), and a
registered file missing from disk. -/
theorem query_observations_validation_order_witness :
    queryObservations exSt "nope" "t" [] = .http404 "MonitoringDataset" ∧
    queryObservations exSt "d" "only-e" [] = .http404 "DataFile" ∧
    queryObservations exSt "d" "ghost" [] =
      .errorResp 404 "File ghost.csv not found on disk" :=
  ⟨(query_observations_validation_order exSt "nope" "t" []).1 (by decide),
   (query_observations_validation_order exSt "d" "only-e" []).2.2.1 ("d", "T")
     "e" (by decide) (by decide) (by decide) (by decide)
     (fun h => Option.noConfusion h),
   (query_observations_validation_order exSt "d" "ghost" []).2.2.2 ("d", "T")
     (by decide) (by decide) rfl⟩

theorem mkQueryBody_limit (di tn dsT fn : String) (limit offset : Int)
    (df2 : DataFrame) :
    (mkQueryBody di tn dsT fn limit offset df2).limit = limit := rfl

theorem mkQueryBody_offset (di tn dsT fn : String) (limit offset : Int)
    (df2 : DataFrame) :
    (mkQueryBody di tn dsT fn limit offset df2).offset = offset := rfl

theorem mkQueryBody_totalRows (di tn dsT fn : String) (limit offset : Int)
    (df2 : DataFrame) :
    (mkQueryBody di tn dsT fn limit offset df2).totalRows = df2.rows.length := rfl

theorem mkQueryBody_data (di tn dsT fn : String) (limit offset : Int)
    (df2 : DataFrame) :
    (mkQueryBody di tn dsT fn limit offset df2).data =
      pySlice df2.rows offset (offset + limit) := rfl

theorem mkQueryBody_nextLink (di tn dsT fn : String) (limit offset : Int)
    (df2 : DataFrame) :
    (mkQueryBody di tn dsT fn limit offset df2).nextLink =
      (if offset + limit < (df2.rows.length : Int) then
        some ("/datasets/" ++ di ++ "/" ++ tn ++ "?limit=" ++ toString limit
          ++ "&offset=" ++ toString (offset + limit))
      else none) := rfl

theorem pySlice_empty_of_ge {α : Type} (l : List α) (a b : Int)
    (h : (l.length : Int) ≤ a) : pySlice l a b = [] := by
  have ha : ¬ a < 0 := by omega
  have h1 : min a.toNat l.length = l.length := min_eq_right (by omega)
  simp only [pySlice, if_neg ha, h1, List.drop_length, List.take_nil]

theorem mkQueryBody_pagination (di tn dsT fn : String) (limit0 offset : Int)
    (df2 : DataFrame) :
    (mkQueryBody di tn dsT fn (min limit0 10000) offset df2).limit =
      min limit0 10000 ∧
    (mkQueryBody di tn dsT fn (min limit0 10000) offset df2).offset = offset ∧
    ((mkQueryBody di tn dsT fn (min limit0 10000) offset df2).nextLink ≠ none ↔
      offset + min limit0 10000 <
        ((mkQueryBody di tn dsT fn (min limit0 10000) offset df2).totalRows : Int)) ∧
    (((mkQueryBody di tn dsT fn (min limit0 10000) offset df2).totalRows : Int) ≤
        offset →
      (mkQueryBody di tn dsT fn (min limit0 10000) offset df2).data = []) ∧
    (0 ≤ limit0 →
      ((mkQueryBody di tn dsT fn (min limit0 10000) offset df2).totalRows : Int) ≤
        offset →
      (mkQueryBody di tn dsT fn (min limit0 10000) offset df2).nextLink = none) := by
  refine ⟨rfl, rfl, ?_, ?_, ?_⟩
  · rw [mkQueryBody_totalRows, mkQueryBody_nextLink]
    split
    · rename_i hc
      simp [hc]
    · rename_i hc
      simp [hc]
  · intro hle
    rw [mkQueryBody_totalRows] at hle
    rw [mkQueryBody_data]
    exact pySlice_empty_of_ge _ _ _ hle
  · intro h0 hle
    rw [mkQueryBody_totalRows] at hle
    rw [mkQueryBody_nextLink]
    have hmin : (0 : Int) ≤ min limit0 10000 := le_min h0 (by norm_num)
    rw [if_neg (by omega)]

/-! ## Claim C4 -/

/-- Counterexample for C4 as stated: on both endpoints a non-integer `limit`
makes `int(...)` — which sits outside the try block — raise a `ValueError`
that escapes the view as a raw exception rather than a structured error
body. -/
theorem query_endpoints_uncaught_valueerror :
    queryObservations exSt "d" "t" [("limit", "abc")] =
      .uncaught "ValueError: invalid literal for int() with base 10" ∧
    observationsView exSt.disk [("file", "t.csv"), ("limit", "abc")] =
      .uncaught "ValueError: invalid literal for int() with base 10" :=
  ⟨rfl, rfl⟩

/-- C4 (amended).  Whenever `limit` and `offset` parse as integers (their
defaults included), no raw exception escapes either endpoint: every outcome
is a structured response — a DRF-rendered Http404, an explicit error body
with status, or a success body.  With a non-integer `limit` or `offset` the
`int()` call outside the try block raises an uncaught ValueError (see the
counterexample). -/
theorem query_endpoints_structured_errors (st : WebState) (ds tn : String)
    (params : List (String × String))
    (disk : String → Option (Except String DataFrame))
    (hl : (pyInt (getParam params "limit" "100")).isSome = true)
    (ho : (pyInt (getParam params "offset" "0")).isSome = true) :
    (∀ m, queryObservations st ds tn params ≠ .uncaught m) ∧
    (∀ m, observationsView disk params ≠ .uncaught m) := by
  obtain ⟨l0, hl'⟩ := Option.isSome_iff_exists.mp hl
  obtain ⟨o0, ho'⟩ := Option.isSome_iff_exists.mp ho
  constructor
  · intro m h
    unfold queryObservations at h
    simp only [hl', ho'] at h
    repeat' split at h
    all_goals cases h
  · intro m h
    unfold observationsView at h
    simp only [hl', ho'] at h
    repeat' split at h
    all_goals cases h

/-- Witness for C4 (amended): with well-formed parameters neither endpoint
produces an uncaught exception. -/
theorem query_endpoints_structured_errors_witness :
    ((pyInt (getParam [("limit", "5")] "limit" "100")).isSome = true) ∧
    queryObservations exSt "d" "t" [("limit", "5")] ≠
      .uncaught "ValueError: invalid literal for int() with base 10" ∧
    observationsView exSt.disk [("limit", "5")] ≠
      .uncaught "ValueError: invalid literal for int() with base 10" :=
  ⟨by decide,
   (query_endpoints_structured_errors exSt "d" "t" [("limit", "5")] exSt.disk
     (by decide) (by decide)).1 _,
   (query_endpoints_structured_errors exSt "d" "t" [("limit", "5")] exSt.disk
     (by decide) (by decide)).2 _⟩

/-! ## Claim C5 -/

/-- Counterexample for C5 as stated: with requested `offset=3` and
`limit=-7` on a three-row table, the offset equals the post-filter total,
the response carries zero data records — but `next` is not `None`, because
`offset + limit = -4 < 3 = total_rows`. -/
theorem query_pagination_next_counterexample :
    queryObservations exSt "d" "t" [("offset", "3"), ("limit", "-7")] =
      .jsonResp c5Body ∧
    pyInt (getParam [("offset", "3"), ("limit", "-7")] "offset" "0") = some 3 ∧
    (c5Body.totalRows : Int) ≤ 3 ∧
    c5Body.data = [] ∧
    c5Body.nextLink ≠ none := by
  exact ⟨by decide, by decide, by decide, by decide, by decide⟩

/-- C5 (amended).  In every JSON response of `query_observations` the
effective limit is `min(requested, 10000)`; `next` is present exactly when
`offset + effective limit < total_rows`; any offset at or past the
post-filter total yields zero data records; and — provided the requested
limit is non-negative (a negative requested limit makes `offset + limit`
wrap below `total_rows`, see the counterexample) — such an offset also
forces `next = None`. -/
theorem query_limit_clamp_pagination (st : WebState) (ds tn : String)
    (params : List (String × String)) (limit0 offset : Int) (b : JsonBody)
    (hl : pyInt (getParam params "limit" "100") = some limit0)
    (ho : pyInt (getParam params "offset" "0") = some offset)
    (hr : queryObservations st ds tn params = .jsonResp b) :
    b.limit = min limit0 10000 ∧
    b.offset = offset ∧
    (b.nextLink ≠ none ↔ offset + min limit0 10000 < (b.totalRows : Int)) ∧
    ((b.totalRows : Int) ≤ offset → b.data = []) ∧
    (0 ≤ limit0 → (b.totalRows : Int) ≤ offset → b.nextLink = none) := by
  unfold queryObservations at hr
  simp only [hl, ho] at hr
  repeat' split at hr
  all_goals try cases hr
  all_goals exact mkQueryBody_pagination _ _ _ _ limit0 offset _

/-- Witness for C5 (amended): `limit=5&offset=10` on the three-row example
table is clamped and paginated as claimed, with `next = None`. -/
theorem query_limit_clamp_pagination_witness :
    pyInt (getParam [("limit", "5"), ("offset", "10")] "limit" "100") = some 5 ∧
    queryObservations exSt "d" "t" [("limit", "5"), ("offset", "10")] =
      .jsonResp c5WitnessBody ∧
    (c5WitnessBody.limit = min 5 10000 ∧
      c5WitnessBody.offset = 10 ∧
      (c5WitnessBody.nextLink ≠ none ↔
        10 + min 5 10000 < (c5WitnessBody.totalRows : Int)) ∧
      ((c5WitnessBody.totalRows : Int) ≤ 10 → c5WitnessBody.data = []) ∧
      (0 ≤ (5 : Int) → (c5WitnessBody.totalRows : Int) ≤ 10 →
        c5WitnessBody.nextLink = none)) :=
  ⟨by decide, by decide,
   query_limit_clamp_pagination exSt "d" "t" [("limit", "5"), ("offset", "10")]
     5 10 c5WitnessBody (by decide) (by decide) (by decide)⟩

end FDC
